import Mathlib

/-!
# The kernel-binary cache `KernDb` (src/include/miopen/kern_db.hpp)

A shallow embedding of `KernelConfig` and of the three operations of `KernDb`
(`FindRecordUnsafe`, `StoreRecordUnsafe`, `RemoveRecordUnsafe`).

* A `std::string` is a `String`, one `Char` standing for one byte.
* The table `kern_db` is the list of its rows in rowid order.  The column `id` is
  assigned by the engine and never read by the code, so a row carries the five
  other columns.
* The operations pass the table explicitly: each returns its C++ result (or the
  exception it throws) together with the table it leaves behind.
* What the header only calls (the hash function, the SQLite engine, the retry
  wrapper of the base class) is collected in `Env`.
-/

namespace miopen

/-! ## KernelConfig -/

/-- The descriptor `struct KernelConfig`. -/
structure KernelConfig where
  kernel_name : String
  kernel_args : String
  kernel_blob : String

/-- The static member `KernelConfig::table_name()`. -/
def KernelConfig.table_name : String := "kern_db"

/-- The static member `KernelConfig::CreateQuery()`: the pieces streamed into `ss`, in order. -/
def KernelConfig.CreateQuery : String :=
  "CREATE TABLE IF NOT EXISTS `" ++ KernelConfig.table_name ++ "` ("
    ++ "`id` INTEGER PRIMARY KEY ASC"
    ++ ",`kernel_name` TEXT NOT NULL"
    ++ ",`kernel_args` TEXT NOT NULL"
    ++ ",`kernel_blob` BLOB NOT NULL"
    ++ ",`kernel_hash` TEXT NOT NULL"
    ++ ",`uncompressed_size` INT NOT NULL"
    ++ ");"
    ++ "CREATE UNIQUE INDEX IF NOT EXISTS "
    ++ "`idx_" ++ KernelConfig.table_name ++ "` "
    ++ "ON " ++ KernelConfig.table_name
    ++ "(kernel_name, kernel_args, kernel_hash, uncompressed_size);"

/-- The member `KernelConfig::Where()`: both values are streamed in as they are. -/
def KernelConfig.Where (c : KernelConfig) : String :=
  "(kernel_name = '" ++ c.kernel_name ++ "')"
    ++ " AND (kernel_args = '" ++ c.kernel_args ++ "')"

/-! ## The table -/

/-- One row of `kern_db`, the columns of `CreateQuery` without `id`. -/
structure Row where
  kernel_name : String
  kernel_args : String
  kernel_blob : String
  kernel_hash : String
  uncompressed_size : Int
deriving DecidableEq

/-- The columns of the unique index `idx_kern_db` declared by `CreateQuery`. -/
def Row.key (r : Row) : String × String × String × Int :=
  (r.kernel_name, r.kernel_args, r.kernel_hash, r.uncompressed_size)

/-- The value the `size_t` length `n` takes as the `sqlite3_int64` argument of
`sqlite3_bind_int64`. -/
def toInt64 (n : Nat) : Int :=
  if n % 2 ^ 64 < 2 ^ 63 then ((n % 2 ^ 64 : Nat) : Int) else ((n % 2 ^ 64 : Nat) : Int) - 2 ^ 64

/-- The value the `sqlite3_int64` column value `i` takes as the `unsigned int`
argument of `decompress_fn`. -/
def toUInt32 (i : Int) : Nat := (i % 2 ^ 32).toNat

/-! ## The engine -/

/-- The exception of `MIOPEN_THROW(miopenStatusInternalError, message)`. -/
structure Exception where
  message : String
deriving DecidableEq

/-- The single-quote character. -/
def quote : Char := Char.ofNat 39

/-- The NUL character. -/
def nul : Char := Char.ofNat 0

/-- Remove the prefix `p` from `s`, when `s` starts with it. -/
def stripPrefix : List Char → List Char → Option (List Char)
  | [], s => some s
  | _ :: _, [] => none
  | p :: ps, c :: cs => if p = c then stripPrefix ps cs else none

/-- Modelled from the spec: the SQL string literal read by the engine, absent from the
sources.  The input starts right after the opening quote; the result is the value of the
literal and the text after its closing quote.  Two quotes in a row stand for one quote of
the value, the first quote not followed by a quote closes the literal, and the statement
text ends at a NUL byte, which leaves the literal open. -/
def scanLiteral : List Char → Option (List Char × List Char)
  | [] => none
  | c :: cs =>
    if c = quote then
      match cs with
      | [] => some ([], [])
      | d :: ds =>
        if d = quote then
          match scanLiteral ds with
          | some (v, rest) => some (quote :: v, rest)
          | none => none
        else some ([], d :: ds)
    else if c = nul then none
    else
      match scanLiteral cs with
      | some (v, rest) => some (c :: v, rest)
      | none => none

/-- Modelled from the spec: the engine reading the text that follows `WHERE` up to the end
of the statement.  The one shape decided here is the conjunction of the two comparisons
that `Where()` writes, each against one string literal; the result is the pair of literal
values. -/
def keyPredicate (w : List Char) : Option (String × String) :=
  match stripPrefix "(kernel_name = '".data w with
  | none => none
  | some r1 =>
    match scanLiteral r1 with
    | none => none
    | some (n, r2) =>
      match stripPrefix ") AND (kernel_args = '".data r2 with
      | none => none
      | some r3 =>
        match scanLiteral r3 with
        | none => none
        | some (a, r4) => if r4 = ");".data then some (String.mk n, String.mk a) else none

/-- The result of `SQLRety([&]() { return sqlite3_step(pStmt.get()); })`: the codes the
header tests for, with the columns of the row that `SQLITE_ROW` makes available, and any
other code with the text `SQLErrorMessage()` then returns. -/
inductive StepResult where
  | SQLITE_ROW (r : Row)
  | SQLITE_DONE
  | SQLITE_BUSY
  | failure (errmsg : String)

/-- A prepared statement `sqlite3_stmt_ptr`. -/
inductive Stmt where
  | select (p : Row → Bool)
  | delete (p : Row → Bool)
  | insert (values : Option Row)

/-- Modelled from the spec: what `kern_db.hpp` calls and the sources do not hold.
* `md5` is the hash function of `miopen/md5.hpp`.
* `order` is the order in which the engine visits the rows of the table when it runs a
  `SELECT`; the spec leaves it open.
* `other` is the engine reading a `WHERE` text that `keyPredicate` does not decide: the
  row filter it stands for, or the message of the error `Prepare` raises.
* `busy` is how many times in a row `sqlite3_step` answers `SQLITE_BUSY` before it runs
  the statement; `max_tries` bounds the attempts of `SQLRety`.
* `fault`, when set, is the error the engine reports instead of running the statement. -/
structure Env where
  md5 : String → String
  order : List Row → List Row
  other : String → Except String (Row → Bool)
  busy : Nat
  max_tries : Nat
  fault : Option String

/-- The text of the `SELECT` statement up to the predicate. -/
def selectPrefix : String :=
  "SELECT kernel_blob, kernel_hash, uncompressed_size FROM kern_db WHERE "

/-- The text of the `DELETE` statement up to the predicate. -/
def deletePrefix : String := "DELETE FROM kern_db WHERE "

/-- The text of the `INSERT OR REPLACE` statement. -/
def insertText : String :=
  "INSERT OR REPLACE INTO kern_db(kernel_name, kernel_args, kernel_blob, kernel_hash, "
    ++ "uncompressed_size) VALUES(?, ?, ?, ?, ?);"

/-- Modelled from the spec: the row filter the engine compiles from the text after
`WHERE`: equality of both key columns with the two literal values when the text has the
shape of `keyPredicate`, and whatever `other` says for any other text. -/
def Env.compileWhere (env : Env) (w : List Char) : Except Exception (Row → Bool) :=
  match keyPredicate w with
  | some (n, a) => .ok (fun r => decide (r.kernel_name = n) && decide (r.kernel_args = a))
  | none =>
    match env.other (String.mk w) with
    | .ok p => .ok p
    | .error msg => .error ⟨msg⟩

/-- Modelled from the spec: `SQLiteBase::Prepare`, absent from the sources.  It compiles
the three statements the header writes and throws on any other text. -/
def Env.Prepare (env : Env) (sql : String) : Except Exception Stmt :=
  match stripPrefix selectPrefix.data sql.data with
  | some w =>
    match env.compileWhere w with
    | .ok p => .ok (.select p)
    | .error e => .error e
  | none =>
    match stripPrefix deletePrefix.data sql.data with
    | some w =>
      match env.compileWhere w with
      | .ok p => .ok (.delete p)
      | .error e => .error e
    | none => if sql = insertText then .ok (.insert none) else .error ⟨"SQL logic error"⟩

/-- Modelled from the spec: the five `sqlite3_bind_*` calls of `StoreRecordUnsafe` taken
together; each value is bound in full, as the spec has it persisted verbatim. -/
def Stmt.bind : Stmt → Row → Stmt
  | .insert _, r => .insert (some r)
  | s, _ => s

/-- Modelled from the spec: the upsert of the engine.  The unique index spans the columns
of `Row.key`; `OR REPLACE` deletes the rows that collide with the new one on the index and
then inserts the new row, which takes the largest rowid. -/
def insertOrReplace (t : List Row) (r : Row) : List Row :=
  t.filter (fun x => !decide (x.key = r.key)) ++ [r]

/-- Modelled from the spec: the engine running a statement on the table, with the table
it leaves.  A `SELECT` yields the first row of the visiting order that passes the filter,
a `DELETE` removes the rows that pass it, an insert is the upsert. -/
def Env.run (env : Env) (s : Stmt) (t : List Row) : StepResult × List Row :=
  match s with
  | .select p =>
    match (env.order t).find? p with
    | some r => (.SQLITE_ROW r, t)
    | none => (.SQLITE_DONE, t)
  | .delete p => (.SQLITE_DONE, t.filter (fun r => !p r))
  | .insert (some r) => (.SQLITE_DONE, insertOrReplace t r)
  | .insert none => (.failure "NOT NULL constraint failed", t)

/-- Modelled from the spec: `sqlite3_step` on its `attempt`-th call for a statement.  It
answers `SQLITE_BUSY` while the engine is contended, then reports the fault when there is
one, and runs the statement otherwise. -/
def Env.sqlite3_step (env : Env) (s : Stmt) (t : List Row) (attempt : Nat) :
    StepResult × List Row :=
  if attempt < env.busy then (.SQLITE_BUSY, t)
  else
    match env.fault with
    | some msg => (.failure msg, t)
    | none => env.run s t

/-- Modelled from the spec: the loop of `SQLiteBase::SQLRety`, absent from the sources,
with `tries` attempts left, `attempt` being the number of the next call of `f`.  It calls
`f` again while the answer is `SQLITE_BUSY` and hands any other answer back; when the
attempts are used up it throws. -/
def SQLRetyLoop (f : Nat → StepResult × List Row) (t : List Row) :
    Nat → Nat → Except Exception StepResult × List Row
  | 0, _ => (.error ⟨"Timeout while waiting for Database"⟩, t)
  | tries + 1, attempt =>
    match f attempt with
    | (.SQLITE_BUSY, _) => SQLRetyLoop f t tries (attempt + 1)
    | (rc, t1) => (.ok rc, t1)

/-- Modelled from the spec: `SQLiteBase::SQLRety` around `sqlite3_step`. -/
def Env.SQLRety (env : Env) (s : Stmt) (t : List Row) : Except Exception StepResult × List Row :=
  SQLRetyLoop (env.sqlite3_step s t) t env.max_tries 0

/-- Modelled from the spec: `SQLiteBase::SQLErrorMessage`, the text of the engine for the
last result. -/
def StepResult.SQLErrorMessage : StepResult → String
  | .SQLITE_ROW _ => "another row available"
  | .SQLITE_DONE => "no more rows available"
  | .SQLITE_BUSY => "database is locked"
  | .failure errmsg => errmsg

/-! ## KernDb -/

/-- The members of `class KernDb` the three operations read: `filename` of the base class
and the codec.  `compress_fn` returns its result together with the flag it leaves in
`*success`; the second argument of `decompress_fn` is an `unsigned int`. -/
structure KernDb where
  filename : String
  compress_fn : String → String × Bool
  decompress_fn : String → Nat → String

/-- The payload `FindRecordUnsafe` computes from the row it reads (lines 134-139). -/
def KernDb.decode (db : KernDb) (r : Row) : String :=
  let compressed_blob := r.kernel_blob
  let uncompressed_size := r.uncompressed_size
  if uncompressed_size ≠ 0 then db.decompress_fn compressed_blob (toUInt32 uncompressed_size)
  else compressed_blob

/-- The values `StoreRecordUnsafe` binds to the insert statement (lines 160-197). -/
def KernDb.encode (db : KernDb) (env : Env) (problem_config : KernelConfig) : Row :=
  let md5_sum := env.md5 problem_config.kernel_blob
  let uncompressed_size := problem_config.kernel_blob.length
  let (compressed_blob, success) := db.compress_fn problem_config.kernel_blob
  if !success then
    ⟨problem_config.kernel_name, problem_config.kernel_args, problem_config.kernel_blob,
      md5_sum, 0⟩
  else
    ⟨problem_config.kernel_name, problem_config.kernel_args, compressed_blob,
      md5_sum, toInt64 uncompressed_size⟩

/-- Lines 102-105 of `RemoveRecordUnsafe`: the delete statement is written, prepared and
stepped. -/
def KernDb.deleteStep (env : Env) (t : List Row) (problem_config : KernelConfig) :
    Except Exception StepResult × List Row :=
  let del_query :=
    "DELETE FROM " ++ KernelConfig.table_name ++ " WHERE " ++ problem_config.Where ++ ";"
  match env.Prepare del_query with
  | .error e => (.error e, t)
  | .ok pStmt => env.SQLRety pStmt t

/-- The template `KernDb::RemoveRecordUnsafe` at `T = KernelConfig`. -/
def KernDb.RemoveRecordUnsafe (db : KernDb) (env : Env) (t : List Row)
    (problem_config : KernelConfig) : Except Exception Bool × List Row :=
  if db.filename = "" then (.ok true, t)
  else
    match KernDb.deleteStep env t problem_config with
    | (.error e, t1) => (.error e, t1)
    | (.ok .SQLITE_DONE, t1) => (.ok true, t1)
    | (.ok rc, t1) => (.error ⟨rc.SQLErrorMessage⟩, t1)

/-- Lines 121-126 of `FindRecordUnsafe`: the select statement is written, prepared and
stepped. -/
def KernDb.selectStep (env : Env) (t : List Row) (problem_config : KernelConfig) :
    Except Exception StepResult × List Row :=
  let select_query :=
    "SELECT kernel_blob, kernel_hash, uncompressed_size FROM " ++
      KernelConfig.table_name ++ " WHERE " ++ problem_config.Where ++ ";"
  match env.Prepare select_query with
  | .error e => (.error e, t)
  | .ok pStmt => env.SQLRety pStmt t

/-- The template `KernDb::FindRecordUnsafe` at `T = KernelConfig`. -/
def KernDb.FindRecordUnsafe (db : KernDb) (env : Env) (t : List Row)
    (problem_config : KernelConfig) : Except Exception (Option String) × List Row :=
  if db.filename = "" then (.ok none, t)
  else
    match KernDb.selectStep env t problem_config with
    | (.error e, t1) => (.error e, t1)
    | (.ok (.SQLITE_ROW r), t1) =>
      let md5_hash := r.kernel_hash
      let decompressed_blob := db.decode r
      let new_md5 := env.md5 decompressed_blob
      if new_md5 ≠ md5_hash then (.error ⟨"Possible database corruption"⟩, t1)
      else (.ok (some decompressed_blob), t1)
    | (.ok .SQLITE_DONE, t1) => (.ok none, t1)
    | (.ok rc, t1) => (.error ⟨rc.SQLErrorMessage⟩, t1)

/-- Lines 157-199 of `StoreRecordUnsafe`: the insert statement is written and prepared,
the five values are bound, and the statement is stepped. -/
def KernDb.insertStep (db : KernDb) (env : Env) (t : List Row) (problem_config : KernelConfig) :
    Except Exception StepResult × List Row :=
  let insert_query :=
    "INSERT OR REPLACE INTO " ++ KernelConfig.table_name ++
      "(kernel_name, kernel_args, kernel_blob, kernel_hash, " ++
      "uncompressed_size) VALUES(?, ?, ?, ?, ?);"
  match env.Prepare insert_query with
  | .error e => (.error e, t)
  | .ok pStmt => env.SQLRety (pStmt.bind (db.encode env problem_config)) t

/-- The template `KernDb::StoreRecordUnsafe` at `T = KernelConfig`. -/
def KernDb.StoreRecordUnsafe (db : KernDb) (env : Env) (t : List Row)
    (problem_config : KernelConfig) : Except Exception (Option String) × List Row :=
  if db.filename = "" then (.ok none, t)
  else
    match db.insertStep env t problem_config with
    | (.error e, t1) => (.error e, t1)
    | (.ok .SQLITE_DONE, t1) => (.ok (some problem_config.kernel_blob), t1)
    | (.ok rc, t1) => (.error ⟨rc.SQLErrorMessage⟩, t1)

/-! ## Vocabulary of the statements -/

deriving instance DecidableEq for Except

/-- The rows a descriptor is meant to select: those with its name and its args. -/
def KernelConfig.selects (c : KernelConfig) (r : Row) : Bool :=
  decide (r.kernel_name = c.kernel_name) && decide (r.kernel_args = c.kernel_args)

/-- A text that holds neither a single quote nor a NUL byte. -/
def sqlSafe (s : String) : Prop := quote ∉ s.data ∧ nul ∉ s.data

instance (s : String) : Decidable (sqlSafe s) := by unfold sqlSafe; infer_instance

/-- An engine that runs the statement it is given: it is busy for fewer attempts than
`SQLRety` makes and reports no error of its own. -/
def Env.Runs (env : Env) : Prop := env.busy < env.max_tries ∧ env.fault = none

instance (env : Env) : Decidable env.Runs := by unfold Env.Runs; infer_instance

/-- An engine whose visiting order is a rearrangement of the rows of the table. -/
def Env.VisitsEachRow (env : Env) : Prop := ∀ t, (env.order t).Perm t

/-- No two rows of the table agree on the four columns of the unique index. -/
def Unique (t : List Row) : Prop := (t.map Row.key).Nodup

instance (t : List Row) : Decidable (Unique t) := by unfold Unique; infer_instance

/-- One call of the cache, made through some handle on some engine. -/
inductive Call where
  | Store (db : KernDb) (env : Env) (problem_config : KernelConfig)
  | Remove (db : KernDb) (env : Env) (problem_config : KernelConfig)
  | Find (db : KernDb) (env : Env) (problem_config : KernelConfig)

/-- The table a call leaves behind, whether it returns or throws. -/
def Call.after : Call → List Row → List Row
  | .Store db env c, t => (db.StoreRecordUnsafe env t c).2
  | .Remove db env c, t => (db.RemoveRecordUnsafe env t c).2
  | .Find db env c, t => (db.FindRecordUnsafe env t c).2

/-- The table after a sequence of calls, the first call of the list being made first. -/
def runCalls (calls : List Call) (t : List Row) : List Row :=
  calls.foldl (fun t c => c.after t) t

/-- An engine for the examples, for a given hash function: rows are visited in rowid
order, a text that `keyPredicate` does not decide is rejected, and nothing is busy. -/
def rowidEnv (md5 : String → String) : Env :=
  { md5 := md5
    order := fun t => t
    other := fun _ => .error "syntax error"
    busy := 0
    max_tries := 1
    fault := none }

/-- The engine of the examples with the text itself as its hash. -/
def exampleEnv : Env := rowidEnv (fun s => s)

/-- A handle for the examples: the codec puts one byte in front and takes it off again. -/
def exampleDb : KernDb :=
  { filename := "kern.db"
    compress_fn := fun s => (String.mk ('z' :: s.data), true)
    decompress_fn := fun s n => String.mk ((s.data.drop 1).take n) }

/-- A payload of 2^32 bytes. -/
def bigBlob : String := String.mk (List.replicate (2 ^ 32) 'x')

/-- A handle for the examples whose codec compresses every payload to one byte and
decompresses to as many bytes `x` as it is asked for. -/
def lengthDb : KernDb :=
  { filename := "kern.db"
    compress_fn := fun _ => ("z", true)
    decompress_fn := fun _ n => String.mk (List.replicate n 'x') }

/-- The row `FindRecordUnsafe` reads its three columns from, when it reads one. -/
def KernDb.examined (db : KernDb) (env : Env) (t : List Row) (problem_config : KernelConfig) :
    Option Row :=
  if db.filename = "" then none
  else
    match KernDb.selectStep env t problem_config with
    | (.ok (.SQLITE_ROW r), _) => some r
    | _ => none

deriving instance DecidableEq for StepResult

end miopen

/-!
# composable_kernel: container helpers and the descriptors of the grouped convolution

(src/kernels/composable_kernel/include/utility/container_helper.hpp and
kernel_algorithm/gridwise_convolution_backward_weights_implicit_gemm_v4r4_xdlops_nchw_kcyx_nkhw.hpp)

* An `Array<TData, NSize>` is the function from an index to the element at that index;
  the indices below `NSize` are those of the array, and `NSize` is passed where the code
  reads it.  A `Sequence<Is...>` is the same with indices as elements.
* The values of `index_t` are natural numbers: what the sources compute with them are
  constant expressions, in which an overflow does not compile.
-/

namespace ck

/-! ## container_helper.hpp -/

/-- Modelled from the spec: `static_for<0, N, 1>` of `functional2.hpp`, absent from the
sources: the body is run for `i = 0, 1, ..., N - 1`, in this order, on the state `s`. -/
def static_for {σ : Type} (N : Nat) (body : Nat → σ → σ) (s : σ) : σ :=
  match N with
  | 0 => s
  | k + 1 => body k (static_for k body s)

/-- Modelled from the spec: `static_for<Begin, 0, -1>` of `functional2.hpp`, absent from
the sources: the body is run for `i = Begin, Begin - 1, ..., 1`, in this order. -/
def static_for_down {σ : Type} (Begin : Nat) (body : Nat → σ → σ) (s : σ) : σ :=
  match Begin with
  | 0 => s
  | k + 1 => static_for_down k body (body (k + 1) s)

/-- The `Array` overload of `container_reorder_given_new2old`:
`make_array(old_array[Number<IRs>{}]...)`. -/
def container_reorder_given_new2old {TData : Type} (old_array : Nat → TData)
    (new2old : Nat → Nat) : Nat → TData :=
  fun i => old_array (new2old i)

/-- Modelled from the spec: `is_valid_sequence_map` of `sequence.hpp`, absent from the
sources, for a sequence of `N` entries: the entries are a rearrangement of
`0, 1, ..., N - 1`. -/
def is_valid_sequence_map (N : Nat) (s : Nat → Nat) : Prop :=
  ((List.range N).map s).Perm (List.range N)

instance (N : Nat) (s : Nat → Nat) : Decidable (is_valid_sequence_map N s) := by
  unfold is_valid_sequence_map; infer_instance

/-- Modelled from the spec: `sequence_map_inverse` of `sequence.hpp`, absent from the
sources, for a sequence of `N` entries: entry `i` of the result is the position at which
the sequence holds `i`. -/
def sequence_map_inverse (N : Nat) (s : Nat → Nat) : Nat → Nat :=
  fun i => ((List.range N).find? (fun j => decide (s j = i))).getD 0

/-- The `Array` overload of `container_reorder_given_old2new`, `N` being the number of
entries of `old2new`. -/
def container_reorder_given_old2new {TData : Type} (N : Nat) (old_array : Nat → TData)
    (old2new : Nat → Nat) : Nat → TData :=
  container_reorder_given_new2old old_array (sequence_map_inverse N old2new)

/-- The `Array` overload of `container_reverse_inclusive_scan`; `y` is the content of the
array `y` as declared, before any of its elements is assigned. -/
def container_reverse_inclusive_scan {TData : Type} (NSize : Nat) (x : Nat → TData)
    (f : TData → TData → TData) (init : TData) (y : Nat → TData) : Nat → TData :=
  let r := init
  let s := static_for_down (NSize - 1)
    (fun i (s : (Nat → TData) × TData) =>
      let r := f s.2 (x i)
      (Function.update s.1 i r, r))
    (y, r)
  let r := f s.2 (x 0)
  Function.update s.1 0 r

/-- The `Array` overload of `container_reverse_exclusive_scan`; `y` is the content of the
array `y` as declared, before any of its elements is assigned. -/
def container_reverse_exclusive_scan {TData : Type} (NSize : Nat) (x : Nat → TData)
    (f : TData → TData → TData) (init : TData) (y : Nat → TData) : Nat → TData :=
  let r := init
  let s := static_for_down (NSize - 1)
    (fun i (s : (Nat → TData) × TData) => (Function.update s.1 i s.2, f s.2 (x i)))
    (y, r)
  Function.update s.1 0 s.2

/-- The `Array` overload of `get_container_subset`: `make_array(arr[Number<Is>{}]...)`. -/
def get_container_subset {T : Type} (arr : Nat → T) (picks : Nat → Nat) : Nat → T :=
  fun i => arr (picks i)

/-- The `Array` overload of `set_container_subset`, `M` being the number of entries of
`picks`; the result is the array `y` after the call. -/
def set_container_subset {T : Type} (M : Nat) (y : Nat → T) (picks : Nat → Nat)
    (x : Nat → T) : Nat → T :=
  static_for M (fun i y => Function.update y (picks i) (x i)) y

/-- The array that holds the elements of the list, and `d` at every other index. -/
def arrayOf {T : Type} (l : List T) (d : T) : Nat → T := fun i => l.getD i d

/-! ## The descriptors of the grouped convolution -/

/-- Modelled from the spec: `NativeTensorDescriptor` of `tensor_descriptor.hpp`, absent
from the sources: the lengths and the strides of the dimensions. -/
structure NativeTensorDescriptor where
  lengths : List Nat
  strides : List Nat
deriving DecidableEq

/-- Modelled from the spec: `make_native_tensor_descriptor` of
`tensor_descriptor_helper.hpp`, absent from the sources. -/
def make_native_tensor_descriptor (lengths strides : List Nat) : NativeTensorDescriptor :=
  ⟨lengths, strides⟩

/-- Modelled from the spec: `NativeTensorDescriptor::CalculateOffset`, absent from the
sources: the sum over the dimensions of index times stride. -/
def NativeTensorDescriptor.CalculateOffset (d : NativeTensorDescriptor) (idx : List Nat) :
    Nat :=
  (List.zipWith (fun i s => i * s) idx d.strides).sum

/-- The descriptor `in_g_n_cpergroup_hi_wi_global_desc` of `Run` (lines 68 and 95-97),
for `G` groups over an input of lengths `N`, `C`, `Hi`, `Wi`. -/
def in_g_n_cpergroup_hi_wi_global_desc (G N C Hi Wi : Nat) : NativeTensorDescriptor :=
  let CPerGroup := C / G
  make_native_tensor_descriptor [G, N, CPerGroup, Hi, Wi]
    [CPerGroup * Hi * Wi, C * Hi * Wi, Hi * Wi, Wi, 1]

/-- The descriptor `out_g_n_kpergroup_ho_wo_global_desc` of `Run` (lines 69 and 102-104),
for `G` groups over an output of lengths `N`, `K`, `Ho`, `Wo`. -/
def out_g_n_kpergroup_ho_wo_global_desc (G N K Ho Wo : Nat) : NativeTensorDescriptor :=
  let KPerGroup := K / G
  make_native_tensor_descriptor [G, N, KPerGroup, Ho, Wo]
    [KPerGroup * Ho * Wo, K * Ho * Wo, Ho * Wo, Wo, 1]

/-- The view `d` of a packed tensor of lengths `N`, `C`, `H`, `W` in `G` groups: its
lengths are `G`, `N`, `C / G`, `H`, `W`; it sends every index `(g, n, c, h, w)` in range to
the packed offset of the element `(n, g * (C / G) + c, h, w)`, whose channel is below `C`
and whose offset is below `N * C * H * W`; and two indices in range with the same offset
are the same. -/
def GroupedView (d : NativeTensorDescriptor) (G N C H W : Nat) : Prop :=
  d.lengths = [G, N, C / G, H, W] ∧
  ∀ g n c h w, g < G → n < N → c < C / G → h < H → w < W →
    d.CalculateOffset [g, n, c, h, w] =
      n * C * H * W + (g * (C / G) + c) * H * W + h * W + w ∧
    g * (C / G) + c < C ∧
    d.CalculateOffset [g, n, c, h, w] < N * C * H * W ∧
    ∀ g' n' c' h' w', g' < G → n' < N → c' < C / G → h' < H → w' < W →
      d.CalculateOffset [g', n', c', h', w'] = d.CalculateOffset [g, n, c, h, w] →
      g' = g ∧ n' = n ∧ c' = c ∧ h' = h ∧ w' = w

end ck

namespace miopen

/-! ## The engine on the statements of the header -/

theorem stripPrefix_append (p s : List Char) : stripPrefix p (p ++ s) = some s := by
  induction p with
  | nil => rfl
  | cons c cs ih => simp [stripPrefix, ih]

theorem scanLiteral_safe (l : List Char) (d : Char) (ds : List Char)
    (hq : quote ∉ l) (hn : nul ∉ l) (hd : d ≠ quote) :
    scanLiteral (l ++ quote :: d :: ds) = some (l, d :: ds) := by
  induction l with
  | nil => simp [scanLiteral, hd]
  | cons c cs ih =>
    have hc : c ≠ quote := fun h => hq (by simp [h])
    have hc0 : c ≠ nul := fun h => hn (by simp [h])
    have hq1 : quote ∉ cs := fun h => hq (List.mem_cons_of_mem _ h)
    have hn1 : nul ∉ cs := fun h => hn (List.mem_cons_of_mem _ h)
    rw [List.cons_append, scanLiteral.eq_def]
    simp [hc, hc0, ih hq1 hn1]

theorem keyPredicate_Where (c : KernelConfig) (hn : sqlSafe c.kernel_name)
    (ha : sqlSafe c.kernel_args) :
    keyPredicate (c.Where ++ ";").data = some (c.kernel_name, c.kernel_args) := by
  have e : (c.Where ++ ";").data =
      "(kernel_name = '".data ++ (c.kernel_name.data ++ quote :: ')' ::
        (") AND (kernel_args = '".data.drop 1 ++
          (c.kernel_args.data ++ quote :: ')' :: [';']))) := by
    simp [KernelConfig.Where, String.data_append, quote]
  simp only [e, keyPredicate, stripPrefix_append,
    scanLiteral_safe _ _ _ hn.1 hn.2 (by decide : ')' ≠ quote)]
  have e2 : (')' :: (List.drop 1 ") AND (kernel_args = '".data ++
      (c.kernel_args.data ++ quote :: ')' :: [';']))) =
      ") AND (kernel_args = '".data ++ (c.kernel_args.data ++ quote :: ')' :: [';']) := rfl
  simp only [e2, stripPrefix_append, scanLiteral_safe _ _ _ ha.1 ha.2 (by decide : ')' ≠ quote)]
  rfl

theorem Prepare_select (env : Env) (c : KernelConfig) (hn : sqlSafe c.kernel_name)
    (ha : sqlSafe c.kernel_args) :
    env.Prepare ("SELECT kernel_blob, kernel_hash, uncompressed_size FROM " ++
        KernelConfig.table_name ++ " WHERE " ++ c.Where ++ ";") = .ok (.select c.selects) := by
  have e : ("SELECT kernel_blob, kernel_hash, uncompressed_size FROM " ++
        KernelConfig.table_name ++ " WHERE " ++ c.Where ++ ";").data =
      selectPrefix.data ++ (c.Where ++ ";").data := by
    simp only [String.data_append, List.append_assoc]
    rfl
  rw [Env.Prepare, e, stripPrefix_append]
  simp only [Env.compileWhere, keyPredicate_Where c hn ha]
  rfl

theorem Prepare_delete (env : Env) (c : KernelConfig) (hn : sqlSafe c.kernel_name)
    (ha : sqlSafe c.kernel_args) :
    env.Prepare ("DELETE FROM " ++ KernelConfig.table_name ++ " WHERE " ++ c.Where ++ ";") =
      .ok (.delete c.selects) := by
  have e : ("DELETE FROM " ++ KernelConfig.table_name ++ " WHERE " ++ c.Where ++ ";").data =
      deletePrefix.data ++ (c.Where ++ ";").data := by
    simp only [String.data_append, List.append_assoc]
    rfl
  have e1 : stripPrefix selectPrefix.data (deletePrefix.data ++ (c.Where ++ ";").data) = none := by
    rfl
  rw [Env.Prepare, e, e1]
  simp only [stripPrefix_append, Env.compileWhere, keyPredicate_Where c hn ha]
  rfl

theorem Prepare_insert (env : Env) :
    env.Prepare ("INSERT OR REPLACE INTO " ++ KernelConfig.table_name ++
        "(kernel_name, kernel_args, kernel_blob, kernel_hash, " ++
        "uncompressed_size) VALUES(?, ?, ?, ?, ?);") = .ok (.insert none) := by
  rfl

theorem run_ne_busy (env : Env) (s : Stmt) (t : List Row) :
    (env.run s t).1 ≠ .SQLITE_BUSY := by
  unfold Env.run
  split
  · split <;> simp
  · simp
  · simp
  · simp

theorem SQLRetyLoop_runs (env : Env) (s : Stmt) (t : List Row) (hf : env.fault = none) :
    ∀ tries attempt, attempt ≤ env.busy → env.busy < attempt + tries →
      SQLRetyLoop (env.sqlite3_step s t) t tries attempt =
        (.ok (env.run s t).1, (env.run s t).2) := by
  intro tries
  induction tries with
  | zero => intro attempt h1 h2; omega
  | succ n ih =>
    intro attempt h1 h2
    rw [SQLRetyLoop]
    by_cases hb : attempt < env.busy
    · have e : env.sqlite3_step s t attempt = (.SQLITE_BUSY, t) := by
        simp [Env.sqlite3_step, hb]
      rw [e]
      exact ih (attempt + 1) hb (by omega)
    · have e : env.sqlite3_step s t attempt = env.run s t := by
        simp [Env.sqlite3_step, hb, hf]
      rw [e]
      have hne := run_ne_busy env s t
      rcases hr : env.run s t with ⟨rc, t1⟩
      rw [hr] at hne
      cases rc <;> simp at hne ⊢

theorem SQLRety_runs (env : Env) (h : env.Runs) (s : Stmt) (t : List Row) :
    env.SQLRety s t = (.ok (env.run s t).1, (env.run s t).2) :=
  SQLRetyLoop_runs env s t h.2 env.max_tries 0 (Nat.zero_le _) (by have := h.1; omega)

theorem insertStep_runs (db : KernDb) (env : Env) (t : List Row) (c : KernelConfig)
    (h : env.Runs) :
    db.insertStep env t c = (.ok .SQLITE_DONE, insertOrReplace t (db.encode env c)) := by
  simp only [KernDb.insertStep, Prepare_insert, SQLRety_runs env h, Stmt.bind, Env.run]

theorem deleteStep_runs (env : Env) (t : List Row) (c : KernelConfig)
    (h : env.Runs) (hn : sqlSafe c.kernel_name) (ha : sqlSafe c.kernel_args) :
    KernDb.deleteStep env t c = (.ok .SQLITE_DONE, t.filter (fun r => !c.selects r)) := by
  simp only [KernDb.deleteStep, Prepare_delete env c hn ha, SQLRety_runs env h, Env.run]

theorem selectStep_runs (env : Env) (t : List Row) (c : KernelConfig)
    (h : env.Runs) (hn : sqlSafe c.kernel_name) (ha : sqlSafe c.kernel_args) :
    KernDb.selectStep env t c =
      (match (env.order t).find? c.selects with
        | some r => .ok (.SQLITE_ROW r)
        | none => .ok .SQLITE_DONE, t) := by
  simp only [KernDb.selectStep, Prepare_select env c hn ha, SQLRety_runs env h, Env.run]
  cases (env.order t).find? c.selects <;> rfl

theorem Store_runs (db : KernDb) (env : Env) (t : List Row) (c : KernelConfig)
    (he : db.filename ≠ "") (h : env.Runs) :
    db.StoreRecordUnsafe env t c =
      (.ok (some c.kernel_blob), insertOrReplace t (db.encode env c)) := by
  simp only [KernDb.StoreRecordUnsafe, if_neg he, insertStep_runs db env t c h]

theorem Remove_runs (db : KernDb) (env : Env) (t : List Row) (c : KernelConfig)
    (he : db.filename ≠ "") (h : env.Runs) (hn : sqlSafe c.kernel_name)
    (ha : sqlSafe c.kernel_args) :
    db.RemoveRecordUnsafe env t c = (.ok true, t.filter (fun r => !c.selects r)) := by
  simp only [KernDb.RemoveRecordUnsafe, if_neg he, deleteStep_runs env t c h hn ha]

/-- What `FindRecordUnsafe` makes of a step result (lines 127-149). -/
theorem Find_of_step (db : KernDb) (env : Env) (t : List Row) (c : KernelConfig)
    (he : db.filename ≠ "") (r : Row) (t1 : List Row)
    (hs : KernDb.selectStep env t c = (.ok (.SQLITE_ROW r), t1)) :
    db.FindRecordUnsafe env t c =
      (if env.md5 (db.decode r) ≠ r.kernel_hash then
          .error ⟨"Possible database corruption"⟩
        else .ok (some (db.decode r)), t1) := by
  simp only [KernDb.FindRecordUnsafe, if_neg he, hs]
  split <;> rfl

theorem Find_runs (db : KernDb) (env : Env) (t : List Row) (c : KernelConfig)
    (he : db.filename ≠ "") (h : env.Runs) (hn : sqlSafe c.kernel_name)
    (ha : sqlSafe c.kernel_args) :
    db.FindRecordUnsafe env t c =
      (match (env.order t).find? c.selects with
        | some r =>
          if env.md5 (db.decode r) ≠ r.kernel_hash then
            .error ⟨"Possible database corruption"⟩
          else .ok (some (db.decode r))
        | none => .ok none, t) := by
  simp only [KernDb.FindRecordUnsafe, if_neg he, selectStep_runs env t c h hn ha]
  cases (env.order t).find? c.selects with
  | none => rfl
  | some r =>
    simp only []
    split <;> rfl

/-! ## Store followed by Find -/

theorem find?_unique {α : Type} (l : List α) (p : α → Bool) (r : α) (hr : r ∈ l)
    (hp : p r = true) (hu : ∀ x ∈ l, p x = true → x = r) : l.find? p = some r := by
  cases h : l.find? p with
  | none => exact absurd hp (by simpa using List.find?_eq_none.1 h r hr)
  | some x => rw [hu x (List.mem_of_find?_eq_some h) (List.find?_some h)]

theorem encode_selects (db : KernDb) (env : Env) (c : KernelConfig) :
    c.selects (db.encode env c) = true := by
  unfold KernDb.encode KernelConfig.selects
  split
  split <;> simp

theorem encode_hash (db : KernDb) (env : Env) (c : KernelConfig) :
    (db.encode env c).kernel_hash = env.md5 c.kernel_blob := by
  unfold KernDb.encode
  split
  split <;> rfl

theorem encode_of_failure (db : KernDb) (env : Env) (c : KernelConfig)
    (h : (db.compress_fn c.kernel_blob).2 = false) :
    db.encode env c =
      ⟨c.kernel_name, c.kernel_args, c.kernel_blob, env.md5 c.kernel_blob, 0⟩ := by
  unfold KernDb.encode
  split
  rename_i cb ok hc
  rw [hc] at h
  simp only at h
  simp [h]

theorem encode_of_success (db : KernDb) (env : Env) (c : KernelConfig)
    (h : (db.compress_fn c.kernel_blob).2 = true) :
    db.encode env c =
      ⟨c.kernel_name, c.kernel_args, (db.compress_fn c.kernel_blob).1, env.md5 c.kernel_blob,
        toInt64 c.kernel_blob.length⟩ := by
  unfold KernDb.encode
  split
  rename_i cb ok hc
  rw [hc] at h ⊢
  simp only at h
  simp [h]

theorem toInt64_of_lt (n : Nat) (h : n < 2 ^ 63) : toInt64 n = (n : Int) := by
  unfold toInt64
  split <;> omega

theorem toUInt32_toInt64 (n : Nat) : toUInt32 (toInt64 n) = n % 2 ^ 32 := by
  unfold toUInt32 toInt64
  split <;> omega

theorem mem_insertOrReplace (t : List Row) (r x : Row) :
    x ∈ insertOrReplace t r ↔ (x ∈ t ∧ x.key ≠ r.key) ∨ x = r := by
  simp [insertOrReplace]

theorem Find_after_Store (db finder : KernDb) (env : Env) (t : List Row) (c : KernelConfig)
    (he : db.filename ≠ "") (hf : finder.filename ≠ "") (h : env.Runs)
    (hv : env.VisitsEachRow) (hn : sqlSafe c.kernel_name) (ha : sqlSafe c.kernel_args)
    (hfresh : ∀ x ∈ t, c.selects x = true → x.key = (db.encode env c).key) :
    finder.FindRecordUnsafe env (db.StoreRecordUnsafe env t c).2 c =
      (if env.md5 (finder.decode (db.encode env c)) ≠ (db.encode env c).kernel_hash then
          .error ⟨"Possible database corruption"⟩
        else .ok (some (finder.decode (db.encode env c))),
        insertOrReplace t (db.encode env c)) := by
  rw [Store_runs db env t c he h, Find_runs finder env _ c hf h hn ha]
  have hfind : (env.order (insertOrReplace t (db.encode env c))).find? c.selects =
      some (db.encode env c) := by
    apply find?_unique
    · exact (hv _).mem_iff.2 ((mem_insertOrReplace _ _ _).2 (Or.inr rfl))
    · exact encode_selects db env c
    · intro x hx hsel
      rcases (mem_insertOrReplace _ _ _).1 ((hv _).mem_iff.1 hx) with ⟨hxt, hk⟩ | hxr
      · exact absurd (hfresh x hxt hsel) hk
      · exact hxr
  rw [hfind]

theorem decode_encode (db : KernDb) (env : Env) (c : KernelConfig)
    (hc : (db.compress_fn c.kernel_blob).2 = true →
      0 < c.kernel_blob.length ∧ c.kernel_blob.length < 2 ^ 32 ∧
        db.decompress_fn (db.compress_fn c.kernel_blob).1 c.kernel_blob.length =
          c.kernel_blob) :
    db.decode (db.encode env c) = c.kernel_blob := by
  cases hs : (db.compress_fn c.kernel_blob).2 with
  | false => rw [encode_of_failure db env c hs]; simp [KernDb.decode]
  | true =>
    obtain ⟨h0, h32, hrt⟩ := hc hs
    rw [encode_of_success db env c hs]
    have h1 : toInt64 c.kernel_blob.length ≠ 0 := by
      rw [toInt64_of_lt _ (by omega)]; omega
    have h2 : c.kernel_blob.length % 2 ^ 32 = c.kernel_blob.length := Nat.mod_eq_of_lt h32
    simp only [KernDb.decode, h1, ne_eq, not_false_eq_true, if_true, toUInt32_toInt64, h2, hrt]

/-! ## Example engines and payloads -/

theorem rowidEnv_Runs (md5 : String → String) : (rowidEnv md5).Runs :=
  ⟨Nat.lt_succ_self 0, rfl⟩

theorem rowidEnv_VisitsEachRow (md5 : String → String) : (rowidEnv md5).VisitsEachRow :=
  fun t => List.Perm.refl t

theorem bigBlob_length : bigBlob.length = 2 ^ 32 := by
  show (List.replicate (2 ^ 32) 'x').length = 2 ^ 32
  exact List.length_replicate _ _

theorem lengthDb_round_trip :
    lengthDb.decompress_fn (lengthDb.compress_fn bigBlob).1 bigBlob.length = bigBlob := by
  show String.mk (List.replicate bigBlob.length 'x') = bigBlob
  rw [bigBlob_length]
  rfl

theorem lengthDb_decode (env : Env) (n a B : String) (hB : B.length = 2 ^ 32) :
    lengthDb.decode (lengthDb.encode env ⟨n, a, B⟩) = "" := by
  rw [encode_of_success lengthDb env _ rfl]
  have h1 : toInt64 B.length ≠ 0 := by
    rw [hB, toInt64_of_lt _ (by norm_num)]; norm_num
  have h2 : toUInt32 (toInt64 B.length) = 0 := by
    rw [toUInt32_toInt64, hB]; norm_num
  show (if toInt64 B.length ≠ 0 then
      lengthDb.decompress_fn "z" (toUInt32 (toInt64 B.length)) else "z") = ""
  rw [if_pos h1, h2]
  rfl

theorem bigBlob_ne_empty : "" ≠ bigBlob := by
  intro h
  have := congrArg String.length h
  rw [bigBlob_length] at this
  simp at this

/-! ## C1 -/

/-- C1 (as amended): on an enabled cache and an engine that runs its statements and visits
each row, for a descriptor whose name and args hold no single quote and no NUL byte, a
table in which every row with that name and args has the hash and size of the row being
written, and a payload that, when `compress_fn` reports success, is non-empty, shorter
than 2^32 bytes and restored by `decompress_fn` from the compressed bytes and its length:
`StoreRecordUnsafe` followed by `FindRecordUnsafe` returns the payload. -/
theorem C1_round_trip (db : KernDb) (env : Env) (t : List Row) (D : KernelConfig)
    (he : db.filename ≠ "") (hr : env.Runs) (hv : env.VisitsEachRow)
    (hn : sqlSafe D.kernel_name) (ha : sqlSafe D.kernel_args)
    (hfresh : ∀ x ∈ t, D.selects x = true → x.key = (db.encode env D).key)
    (hc : (db.compress_fn D.kernel_blob).2 = true →
      0 < D.kernel_blob.length ∧ D.kernel_blob.length < 2 ^ 32 ∧
        db.decompress_fn (db.compress_fn D.kernel_blob).1 D.kernel_blob.length =
          D.kernel_blob) :
    (db.FindRecordUnsafe env (db.StoreRecordUnsafe env t D).2 D).1 =
      .ok (some D.kernel_blob) := by
  rw [Find_after_Store db db env t D he he hr hv hn ha hfresh, decode_encode db env D hc,
    encode_hash]
  simp

/-- C1 at a concrete input: the table holds an older row of the same key, which the store
replaces, and a row of another name. -/
theorem C1_round_trip_witness :
    (exampleDb.FindRecordUnsafe exampleEnv
        (exampleDb.StoreRecordUnsafe exampleEnv
          [⟨"conv3x3", "f32", "zold", "old", 3⟩, ⟨"conv1x1", "f32", "zabc", "abc", 3⟩]
          ⟨"conv3x3", "f32", "old"⟩).2
        ⟨"conv3x3", "f32", "old"⟩).1 = .ok (some "old") :=
  C1_round_trip exampleDb exampleEnv
    [⟨"conv3x3", "f32", "zold", "old", 3⟩, ⟨"conv1x1", "f32", "zabc", "abc", 3⟩]
    ⟨"conv3x3", "f32", "old"⟩ (by decide) ⟨by decide, rfl⟩ (fun t => List.Perm.refl t)
    (by decide) (by decide) (by decide) (by decide)

/-- C1 (as stated) fails in four ways, each for every hash function `md5`.
(1) The empty payload with a codec that reports success: the row records size 0, so
`FindRecordUnsafe` hashes the compressed bytes and does not return the payload.
(2) A table that already holds the row of an earlier call with the same name and args and
the payload `abd`: rowid order yields that row, and `abd` is returned instead of `p` (the
MD5 of `abd` is below the MD5 of `p`, so an engine that walks the unique index yields the
same row).
(3) A name with two single quotes in a row: the `SELECT` looks for the name with one
quote and finds no row.
(4) A payload of 2^32 bytes: the codec is asked for 0 bytes. -/
theorem C1_counterexample :
    (∀ md5 : String → String,
      let db : KernDb := ⟨"kern.db", fun _ => ("z", true), fun _ _ => ""⟩
      let D : KernelConfig := ⟨"k", "a", ""⟩
      db.decompress_fn (db.compress_fn D.kernel_blob).1 D.kernel_blob.length = D.kernel_blob ∧
      (db.FindRecordUnsafe (rowidEnv md5) (db.StoreRecordUnsafe (rowidEnv md5) [] D).2 D).1 ≠
        .ok (some D.kernel_blob)) ∧
    (∀ md5 : String → String,
      let D : KernelConfig := ⟨"k", "a", "p"⟩
      let t := (exampleDb.StoreRecordUnsafe (rowidEnv md5) [] ⟨"k", "a", "abd"⟩).2
      exampleDb.decompress_fn (exampleDb.compress_fn D.kernel_blob).1 D.kernel_blob.length =
        D.kernel_blob ∧
      (exampleDb.FindRecordUnsafe (rowidEnv md5)
        (exampleDb.StoreRecordUnsafe (rowidEnv md5) t D).2 D).1 = .ok (some "abd")) ∧
    (∀ md5 : String → String,
      let D : KernelConfig := ⟨"a''b", "x", "blob"⟩
      exampleDb.decompress_fn (exampleDb.compress_fn D.kernel_blob).1 D.kernel_blob.length =
        D.kernel_blob ∧
      (exampleDb.FindRecordUnsafe (rowidEnv md5)
        (exampleDb.StoreRecordUnsafe (rowidEnv md5) [] D).2 D).1 = .ok none) ∧
    (∀ md5 : String → String,
      let D : KernelConfig := ⟨"k", "a", bigBlob⟩
      lengthDb.decompress_fn (lengthDb.compress_fn D.kernel_blob).1 D.kernel_blob.length =
        D.kernel_blob ∧
      (lengthDb.FindRecordUnsafe (rowidEnv md5)
        (lengthDb.StoreRecordUnsafe (rowidEnv md5) [] D).2 D).1 ≠ .ok (some D.kernel_blob)) := by
  refine ⟨?_, ?_, ?_, ?_⟩
  · intro md5 db D
    refine ⟨rfl, ?_⟩
    rw [Find_after_Store db db (rowidEnv md5) [] D (by decide) (by decide) (rowidEnv_Runs md5)
      (rowidEnv_VisitsEachRow md5) (by decide) (by decide) (by simp)]
    have hd : db.decode (db.encode (rowidEnv md5) D) = "z" := rfl
    rw [hd]
    split
    · simp
    · show ¬ (Except.ok (some "z") : Except Exception (Option String)) = .ok (some "")
      decide
  · intro md5 D t
    refine ⟨rfl, ?_⟩
    rw [Find_runs exampleDb (rowidEnv md5) _ D (by decide) (rowidEnv_Runs md5) (by decide)
      (by decide), Store_runs exampleDb (rowidEnv md5) t D (by decide) (rowidEnv_Runs md5)]
    have ht : insertOrReplace t (exampleDb.encode (rowidEnv md5) D) =
        [⟨"k", "a", "zabd", md5 "abd", 3⟩, ⟨"k", "a", "zp", md5 "p", 1⟩] := by
      show insertOrReplace [⟨"k", "a", "zabd", md5 "abd", 3⟩]
        ⟨"k", "a", "zp", md5 "p", 1⟩ = _
      simp [insertOrReplace, Row.key]
    rw [ht]
    have hf : ((rowidEnv md5).order
        [⟨"k", "a", "zabd", md5 "abd", 3⟩, ⟨"k", "a", "zp", md5 "p", 1⟩]).find?
          D.selects = some ⟨"k", "a", "zabd", md5 "abd", 3⟩ := rfl
    rw [hf]
    have hd : exampleDb.decode ⟨"k", "a", "zabd", md5 "abd", 3⟩ = "abd" := rfl
    simp only [hd]
    have hm : (rowidEnv md5).md5 "abd" = md5 "abd" := rfl
    simp [hm]
  · intro md5
    exact ⟨rfl, rfl⟩
  · intro md5 D
    refine ⟨lengthDb_round_trip, ?_⟩
    rw [Find_after_Store lengthDb lengthDb (rowidEnv md5) [] D (by decide)
      (by decide) (rowidEnv_Runs md5) (rowidEnv_VisitsEachRow md5) (by decide) (by decide)
      (by simp), lengthDb_decode _ _ _ _ bigBlob_length]
    split
    · simp
    · simp only [ne_eq, Except.ok.injEq, Option.some.injEq]
      exact bigBlob_ne_empty

/-! ## C2 -/

/-- C2: whatever the table, the descriptor, the handle and the engine, a payload returned
by `FindRecordUnsafe` is the decoded payload of the row it examined and its `md5` is the
`kernel_hash` of that row; and when the `md5` of the decoded payload (the decompressed
blob, or the blob itself when `uncompressed_size = 0`) of the examined row differs from
its `kernel_hash`, `FindRecordUnsafe` throws "Possible database corruption" (so it returns
neither a payload nor absent). -/
theorem C2_corruption_detection (db : KernDb) (env : Env) (t : List Row) (D : KernelConfig) :
    (∀ P, (db.FindRecordUnsafe env t D).1 = .ok (some P) →
      ∃ r, db.examined env t D = some r ∧ P = db.decode r ∧ env.md5 P = r.kernel_hash) ∧
    (∀ r, db.examined env t D = some r → env.md5 (db.decode r) ≠ r.kernel_hash →
      (db.FindRecordUnsafe env t D).1 = .error ⟨"Possible database corruption"⟩) := by
  unfold KernDb.FindRecordUnsafe KernDb.examined
  by_cases he : db.filename = ""
  · simp [he]
  · simp only [if_neg he]
    rcases hs : KernDb.selectStep env t D with ⟨res, t1⟩
    rcases res with e | rc
    · simp
    · cases rc with
      | SQLITE_ROW r =>
        simp only [Option.some.injEq]
        constructor
        · intro P hP
          by_cases hm : env.md5 (db.decode r) = r.kernel_hash
          · simp only [ne_eq, hm, not_true_eq_false, if_false, Except.ok.injEq,
              Option.some.injEq] at hP
            exact ⟨r, rfl, hP.symm, hP ▸ hm⟩
          · simp [hm] at hP
        · intro r' hr' hm
          subst hr'
          simp [hm]
      | SQLITE_DONE => simp
      | SQLITE_BUSY => simp
      | failure m => simp

/-- C2 at concrete inputs: a row whose bytes were altered makes `FindRecordUnsafe` throw,
and an intact row gives a payload with the stored hash. -/
theorem C2_corruption_detection_witness :
    (exampleDb.FindRecordUnsafe exampleEnv [⟨"k", "a", "zabd", "abc", 3⟩] ⟨"k", "a", ""⟩).1 =
        .error ⟨"Possible database corruption"⟩ ∧
      ∃ r, exampleDb.examined exampleEnv [⟨"k", "a", "zabc", "abc", 3⟩] ⟨"k", "a", ""⟩ = some r ∧
        "abc" = exampleDb.decode r ∧ exampleEnv.md5 "abc" = r.kernel_hash :=
  ⟨(C2_corruption_detection exampleDb exampleEnv [⟨"k", "a", "zabd", "abc", 3⟩]
      ⟨"k", "a", ""⟩).2 ⟨"k", "a", "zabd", "abc", 3⟩ (by decide) (by decide),
    (C2_corruption_detection exampleDb exampleEnv [⟨"k", "a", "zabc", "abc", 3⟩]
      ⟨"k", "a", ""⟩).1 "abc" (by decide)⟩

/-! ## C3 -/

/-- C3: on an enabled cache and an engine that runs its statements, when `compress_fn`
reports failure for the payload B, `StoreRecordUnsafe` writes the row holding B itself as
`kernel_blob` and 0 as `uncompressed_size`; and every `FindRecordUnsafe` that examines that
row (through any handle, so whatever its `decompress_fn` is, with the same hash function)
returns B. -/
theorem C3_compression_failure_fallback (db : KernDb) (env : Env) (t : List Row)
    (D : KernelConfig) (he : db.filename ≠ "") (hr : env.Runs)
    (hc : (db.compress_fn D.kernel_blob).2 = false) :
    let r : Row := ⟨D.kernel_name, D.kernel_args, D.kernel_blob, env.md5 D.kernel_blob, 0⟩
    (db.StoreRecordUnsafe env t D).2 = insertOrReplace t r ∧
    r ∈ (db.StoreRecordUnsafe env t D).2 ∧
    ∀ (finder : KernDb) (env' : Env) (t' : List Row) (D' : KernelConfig),
      env'.md5 = env.md5 → finder.examined env' t' D' = some r →
        (finder.FindRecordUnsafe env' t' D').1 = .ok (some D.kernel_blob) := by
  intro r
  have hs : (db.StoreRecordUnsafe env t D).2 = insertOrReplace t r := by
    rw [Store_runs db env t D he hr, encode_of_failure db env D hc]
  refine ⟨hs, ?_, ?_⟩
  · rw [hs]; exact (mem_insertOrReplace _ _ _).2 (Or.inr rfl)
  · intro finder env' t' D' hmd5 hex
    unfold KernDb.examined at hex
    by_cases hf : finder.filename = ""
    · simp [hf] at hex
    · rw [if_neg hf] at hex
      rcases hstep : KernDb.selectStep env' t' D' with ⟨res, t1⟩
      rw [hstep] at hex
      have hrow : res = .ok (.SQLITE_ROW r) := by
        rcases res with e | rc
        · simp at hex
        · cases rc <;> simp at hex
          rw [hex]
      subst hrow
      rw [Find_of_step finder env' t' D' hf r t1 hstep]
      have hd : finder.decode r = D.kernel_blob := by simp [KernDb.decode, r]
      simp [hd, hmd5, r]

/-- C3 at a concrete input: the codec declines, the payload is stored as it is with size 0,
and it is found although `decompress_fn` would return other bytes. -/
theorem C3_compression_failure_fallback_witness :
    (⟨"kern.db", fun s => (s, false), fun _ _ => "garbage"⟩ : KernDb).FindRecordUnsafe exampleEnv
      ((⟨"kern.db", fun s => (s, false), fun _ _ => "garbage"⟩ : KernDb).StoreRecordUnsafe
        exampleEnv [] ⟨"k", "a", "abc"⟩).2 ⟨"k", "a", ""⟩ =
      (.ok (some "abc"), [⟨"k", "a", "abc", "abc", 0⟩]) :=
  Prod.ext
    ((C3_compression_failure_fallback ⟨"kern.db", fun s => (s, false), fun _ _ => "garbage"⟩
      exampleEnv [] ⟨"k", "a", "abc"⟩ (by decide) ⟨by decide, rfl⟩ rfl).2.2
        ⟨"kern.db", fun s => (s, false), fun _ _ => "garbage"⟩ exampleEnv _ ⟨"k", "a", ""⟩ rfl
        (by decide))
    (by decide)
/-! ## C4 -/

/-- C4: with an empty `filename`, for every descriptor, table, codec and engine (also one
that is busy or faulty), `FindRecordUnsafe` returns absent, `RemoveRecordUnsafe` returns
true and `StoreRecordUnsafe` returns without throwing, and each leaves the table as it
was. -/
theorem C4_disabled_handle (db : KernDb) (env : Env) (t : List Row) (D : KernelConfig)
    (hd : db.filename = "") :
    db.FindRecordUnsafe env t D = (.ok none, t) ∧
    db.RemoveRecordUnsafe env t D = (.ok true, t) ∧
    db.StoreRecordUnsafe env t D = (.ok none, t) := by
  simp [KernDb.FindRecordUnsafe, KernDb.RemoveRecordUnsafe, KernDb.StoreRecordUnsafe, hd]

/-- C4 at a concrete input: a disabled handle on a busy and faulty engine, with a descriptor
whose args hold a quote. -/
theorem C4_disabled_handle_witness :
    let db : KernDb := ⟨"", fun s => (s, false), fun s _ => s⟩
    let env : Env := ⟨fun s => s, fun _ => [], fun _ => .error "syntax error", 5, 1, some "I/O"⟩
    let t : List Row := [⟨"k", "a'b", "blob", "blob", 0⟩]
    let D : KernelConfig := ⟨"k", "a'b", "other"⟩
    db.FindRecordUnsafe env t D = (.ok none, t) ∧
    db.RemoveRecordUnsafe env t D = (.ok true, t) ∧
    db.StoreRecordUnsafe env t D = (.ok none, t) :=
  C4_disabled_handle ⟨"", fun s => (s, false), fun s _ => s⟩
    ⟨fun s => s, fun _ => [], fun _ => .error "syntax error", 5, 1, some "I/O"⟩
    [⟨"k", "a'b", "blob", "blob", 0⟩] ⟨"k", "a'b", "other"⟩ rfl

/-! ## C5 -/

/-- C5: on an enabled cache and an engine that runs its statements, for every descriptor
and whatever `compress_fn` reports, the table after `StoreRecordUnsafe` is the upsert of
one row into the table before; that row carries the name and args of the descriptor, the
`md5` of the plaintext `kernel_blob` as `kernel_hash`, the plaintext and size 0 when the
codec reported failure, and the compressed bytes and the plaintext length when it reported
success. -/
theorem C5_hash_of_plaintext (db : KernDb) (env : Env) (t : List Row) (D : KernelConfig)
    (he : db.filename ≠ "") (hr : env.Runs) :
    ∃ r : Row, (db.StoreRecordUnsafe env t D).2 = insertOrReplace t r ∧
      r ∈ (db.StoreRecordUnsafe env t D).2 ∧
      r.kernel_name = D.kernel_name ∧ r.kernel_args = D.kernel_args ∧
      r.kernel_hash = env.md5 D.kernel_blob ∧
      ((db.compress_fn D.kernel_blob).2 = false →
        r.kernel_blob = D.kernel_blob ∧ r.uncompressed_size = 0) ∧
      ((db.compress_fn D.kernel_blob).2 = true →
        r.kernel_blob = (db.compress_fn D.kernel_blob).1 ∧
          r.uncompressed_size = toInt64 D.kernel_blob.length) := by
  refine ⟨db.encode env D, ?_, ?_, ?_, ?_, encode_hash db env D, ?_, ?_⟩
  · rw [Store_runs db env t D he hr]
  · rw [Store_runs db env t D he hr]; exact (mem_insertOrReplace _ _ _).2 (Or.inr rfl)
  · have := encode_selects db env D
    simp [KernelConfig.selects] at this
    exact this.1
  · have := encode_selects db env D
    simp [KernelConfig.selects] at this
    exact this.2
  · intro h; rw [encode_of_failure db env D h]; exact ⟨rfl, rfl⟩
  · intro h; rw [encode_of_success db env D h]; exact ⟨rfl, rfl⟩

/-- C5 at a concrete input. -/
theorem C5_hash_of_plaintext_witness :
    ∃ r : Row, (exampleDb.StoreRecordUnsafe exampleEnv [] ⟨"k", "a", "abc"⟩).2 =
        insertOrReplace [] r ∧
      r ∈ (exampleDb.StoreRecordUnsafe exampleEnv [] ⟨"k", "a", "abc"⟩).2 ∧
      r.kernel_name = "k" ∧ r.kernel_args = "a" ∧
      r.kernel_hash = exampleEnv.md5 "abc" ∧
      ((exampleDb.compress_fn "abc").2 = false →
        r.kernel_blob = "abc" ∧ r.uncompressed_size = 0) ∧
      ((exampleDb.compress_fn "abc").2 = true →
        r.kernel_blob = (exampleDb.compress_fn "abc").1 ∧
          r.uncompressed_size = toInt64 "abc".length) :=
  C5_hash_of_plaintext exampleDb exampleEnv [] ⟨"k", "a", "abc"⟩ (by decide) ⟨by decide, rfl⟩

/-! ## C6 -/

theorem insertOrReplace_fresh (t : List Row) (r : Row) (h : ∀ x ∈ t, x.key ≠ r.key) :
    insertOrReplace t r = t ++ [r] := by
  unfold insertOrReplace
  rw [List.filter_eq_self.2]
  intro x hx
  simpa using h x hx

theorem key_ne_of_not_selects (c : KernelConfig) (x r : Row) (hx : c.selects x = false)
    (hr : c.selects r = true) : x.key ≠ r.key := by
  intro h
  simp only [Row.key, Prod.mk.injEq] at h
  simp only [KernelConfig.selects, Bool.and_eq_true, decide_eq_true_eq] at hr
  simp [KernelConfig.selects, h.1, h.2.1, hr.1, hr.2] at hx

/-- C6 (as amended): on an enabled cache and an engine that runs its statements and visits
each row, for a descriptor D whose name and args hold no single quote and no NUL byte, a
table with no row of D's name and args, and a non-empty payload B shorter than 2^32 bytes
with `decompress(compress(B), |B|) = B` whenever `compress_fn` reports success:
`StoreRecordUnsafe` appends one row, which holds the compressed bytes and size `|B|` when
the codec succeeded and B itself and size 0 when it declined, and the following
`FindRecordUnsafe` returns B. -/
theorem C6_fresh_key_store (db : KernDb) (env : Env) (t : List Row) (D : KernelConfig)
    (he : db.filename ≠ "") (hr : env.Runs) (hv : env.VisitsEachRow)
    (hn : sqlSafe D.kernel_name) (ha : sqlSafe D.kernel_args)
    (hfresh : ∀ x ∈ t, D.selects x = false)
    (h0 : 0 < D.kernel_blob.length) (h32 : D.kernel_blob.length < 2 ^ 32)
    (hc : (db.compress_fn D.kernel_blob).2 = true →
      db.decompress_fn (db.compress_fn D.kernel_blob).1 D.kernel_blob.length =
        D.kernel_blob) :
    ((db.compress_fn D.kernel_blob).2 = true →
      (db.StoreRecordUnsafe env t D).2 =
        t ++ [⟨D.kernel_name, D.kernel_args, (db.compress_fn D.kernel_blob).1,
          env.md5 D.kernel_blob, (D.kernel_blob.length : Int)⟩]) ∧
    ((db.compress_fn D.kernel_blob).2 = false →
      (db.StoreRecordUnsafe env t D).2 =
        t ++ [⟨D.kernel_name, D.kernel_args, D.kernel_blob, env.md5 D.kernel_blob, 0⟩]) ∧
    (db.FindRecordUnsafe env (db.StoreRecordUnsafe env t D).2 D).1 =
      .ok (some D.kernel_blob) := by
  have hs : (db.StoreRecordUnsafe env t D).2 = t ++ [db.encode env D] := by
    rw [Store_runs db env t D he hr]
    exact insertOrReplace_fresh t _
      (fun x hx => key_ne_of_not_selects D x _ (hfresh x hx) (encode_selects db env D))
  refine ⟨?_, ?_, ?_⟩
  · intro h
    rw [hs, encode_of_success db env D h, toInt64_of_lt _ (by omega)]
  · intro h
    rw [hs, encode_of_failure db env D h]
  · rw [Find_after_Store db db env t D he he hr hv hn ha
      (fun x hx hsel => by rw [hfresh x hx] at hsel; cases hsel),
      decode_encode db env D (fun h => ⟨h0, h32, hc h⟩), encode_hash]
    simp

/-- C6 at a concrete input: the scenario of the spec with a three-byte payload, next to a
row of another name. -/
theorem C6_fresh_key_store_witness :
    ((exampleDb.compress_fn "abc").2 = true →
      (exampleDb.StoreRecordUnsafe exampleEnv [⟨"conv1x1", "f32", "zabc", "abc", 3⟩]
        ⟨"conv3x3", "f32,128x128", "abc"⟩).2 =
        [⟨"conv1x1", "f32", "zabc", "abc", 3⟩] ++
          [⟨"conv3x3", "f32,128x128", (exampleDb.compress_fn "abc").1, exampleEnv.md5 "abc",
            ("abc".length : Int)⟩]) ∧
    ((exampleDb.compress_fn "abc").2 = false →
      (exampleDb.StoreRecordUnsafe exampleEnv [⟨"conv1x1", "f32", "zabc", "abc", 3⟩]
        ⟨"conv3x3", "f32,128x128", "abc"⟩).2 =
        [⟨"conv1x1", "f32", "zabc", "abc", 3⟩] ++
          [⟨"conv3x3", "f32,128x128", "abc", exampleEnv.md5 "abc", 0⟩]) ∧
    (exampleDb.FindRecordUnsafe exampleEnv
      (exampleDb.StoreRecordUnsafe exampleEnv [⟨"conv1x1", "f32", "zabc", "abc", 3⟩]
        ⟨"conv3x3", "f32,128x128", "abc"⟩).2 ⟨"conv3x3", "f32,128x128", "abc"⟩).1 =
      .ok (some "abc") :=
  C6_fresh_key_store exampleDb exampleEnv [⟨"conv1x1", "f32", "zabc", "abc", 3⟩]
    ⟨"conv3x3", "f32,128x128", "abc"⟩ (by decide) ⟨by decide, rfl⟩
    (fun t => List.Perm.refl t) (by decide) (by decide) (by decide) (by decide) (by decide)
    (by decide)

/-- C6 (as stated) fails in two ways, each for every hash function `md5` and on the empty
table.  (1) For the name `conv''3x3` the `SELECT` looks for the name with one quote, and
`FindRecordUnsafe` returns absent.  (2) For a payload of 2^32 bytes the row records the
size 2^32, `FindRecordUnsafe` asks the codec for 0 bytes, and B is not returned. -/
theorem C6_counterexample :
    (∀ md5 : String → String,
      let D : KernelConfig := ⟨"conv''3x3", "f32,128x128", "abc"⟩
      0 < D.kernel_blob.length ∧
      ((exampleDb.compress_fn D.kernel_blob).2 = true →
        exampleDb.decompress_fn (exampleDb.compress_fn D.kernel_blob).1 D.kernel_blob.length =
          D.kernel_blob) ∧
      (exampleDb.FindRecordUnsafe (rowidEnv md5)
        (exampleDb.StoreRecordUnsafe (rowidEnv md5) [] D).2 D).1 = .ok none) ∧
    (∀ md5 : String → String,
      let D : KernelConfig := ⟨"conv3x3", "f32,128x128", bigBlob⟩
      0 < D.kernel_blob.length ∧
      ((lengthDb.compress_fn D.kernel_blob).2 = true →
        lengthDb.decompress_fn (lengthDb.compress_fn D.kernel_blob).1 D.kernel_blob.length =
          D.kernel_blob) ∧
      (lengthDb.StoreRecordUnsafe (rowidEnv md5) [] D).2 =
        [⟨"conv3x3", "f32,128x128", "z", md5 bigBlob, 2 ^ 32⟩] ∧
      (lengthDb.FindRecordUnsafe (rowidEnv md5)
        (lengthDb.StoreRecordUnsafe (rowidEnv md5) [] D).2 D).1 ≠ .ok (some D.kernel_blob)) := by
  refine ⟨?_, ?_⟩
  · intro md5
    exact ⟨by decide, fun _ => rfl, rfl⟩
  · intro md5 D
    refine ⟨?_, fun _ => lengthDb_round_trip, ?_, ?_⟩
    · show 0 < bigBlob.length
      rw [bigBlob_length]; norm_num
    · rw [Store_runs lengthDb (rowidEnv md5) [] D (by decide) (rowidEnv_Runs md5),
        encode_of_success lengthDb _ D rfl]
      show [(⟨"conv3x3", "f32,128x128", "z", md5 bigBlob, toInt64 bigBlob.length⟩ : Row)] = _
      rw [bigBlob_length, toInt64_of_lt _ (by norm_num)]
      norm_num
    · rw [Find_after_Store lengthDb lengthDb (rowidEnv md5) [] D (by decide)
        (by decide) (rowidEnv_Runs md5) (rowidEnv_VisitsEachRow md5) (by decide) (by decide)
        (by simp), lengthDb_decode _ _ _ _ bigBlob_length]
      split
      · simp
      · simp only [ne_eq, Except.ok.injEq, Option.some.injEq]
        exact bigBlob_ne_empty

/-! ## C7 -/

theorem Find_unique_match (finder : KernDb) (env : Env) (t : List Row) (c : KernelConfig)
    (r : Row) (hf : finder.filename ≠ "") (h : env.Runs) (hv : env.VisitsEachRow)
    (hn : sqlSafe c.kernel_name) (ha : sqlSafe c.kernel_args)
    (hr : r ∈ t) (hsel : c.selects r = true) (hu : ∀ x ∈ t, c.selects x = true → x = r) :
    finder.FindRecordUnsafe env t c =
      (if env.md5 (finder.decode r) ≠ r.kernel_hash then
          .error ⟨"Possible database corruption"⟩
        else .ok (some (finder.decode r)), t) := by
  rw [Find_runs finder env t c hf h hn ha]
  have hfind : (env.order t).find? c.selects = some r :=
    find?_unique _ _ _ ((hv t).mem_iff.2 hr) hsel
      (fun x hx hs => hu x ((hv t).mem_iff.1 hx) hs)
  rw [hfind]

theorem filter_key_insertOrReplace (t : List Row) (r : Row) :
    (insertOrReplace t r).filter (fun x => decide (x.key = r.key)) = [r] := by
  unfold insertOrReplace
  rw [List.filter_append, List.filter_filter]
  simp

/-- C7 (as amended): on enabled handles and an engine that runs its statements, for every
table state, when two `StoreRecordUnsafe` calls write rows with the same (kernel_name,
kernel_args, kernel_hash, uncompressed_size), the row of the first call is in the table
after the first call, and the table after the second call holds exactly one row with that
4-tuple, which is the row of the second call (so its `kernel_blob` is the one the second
call wrote).  When moreover no other row has that name and args, the name and args hold no
single quote and no NUL byte, the engine visits each row, and the reading handle decodes
the stored bytes of the second call back to its payload (by `decompress_fn` at the
recorded size when that is not 0, the bytes themselves when it is 0), `FindRecordUnsafe`
returns the payload of the second call. -/
theorem C7_key_collision_replace (db1 db2 finder : KernDb) (env : Env) (t : List Row)
    (D1 D2 : KernelConfig) (he1 : db1.filename ≠ "") (he2 : db2.filename ≠ "")
    (hr : env.Runs) (hkey : (db1.encode env D1).key = (db2.encode env D2).key) :
    db1.encode env D1 ∈ (db1.StoreRecordUnsafe env t D1).2 ∧
    (((db2.StoreRecordUnsafe env (db1.StoreRecordUnsafe env t D1).2 D2).2).filter
        (fun x => decide (x.key = (db1.encode env D1).key)) = [db2.encode env D2]) ∧
    (finder.filename ≠ "" → env.VisitsEachRow →
      sqlSafe D2.kernel_name → sqlSafe D2.kernel_args →
      (∀ x ∈ (db2.StoreRecordUnsafe env (db1.StoreRecordUnsafe env t D1).2 D2).2,
        D2.selects x = true → x = db2.encode env D2) →
      finder.decode (db2.encode env D2) = D2.kernel_blob →
      (finder.FindRecordUnsafe env
        (db2.StoreRecordUnsafe env (db1.StoreRecordUnsafe env t D1).2 D2).2 D2).1 =
          .ok (some D2.kernel_blob)) := by
  rw [Store_runs db2 env _ D2 he2 hr, Store_runs db1 env t D1 he1 hr, hkey]
  refine ⟨(mem_insertOrReplace _ _ _).2 (Or.inr rfl), filter_key_insertOrReplace _ _, ?_⟩
  intro hf hv hn ha hu hd
  rw [Find_unique_match finder env _ D2 (db2.encode env D2) hf hr hv hn ha
    ((mem_insertOrReplace _ _ _).2 (Or.inr rfl)) (encode_selects db2 env D2) hu, hd,
    encode_hash]
  simp

/-- C7 at a concrete input: the payload `abc` is stored through two handles whose codecs put
a different byte in front. -/
theorem C7_key_collision_replace_witness :
    let db1 : KernDb := ⟨"kern.db", fun s => (String.mk ('y' :: s.data), true),
      fun s n => String.mk ((s.data.drop 1).take n)⟩
    let t : List Row := [⟨"k", "b", "zxyz", "xyz", 3⟩]
    let D : KernelConfig := ⟨"k", "a", "abc"⟩
    (⟨"k", "a", "yabc", "abc", 3⟩ : Row) ∈ (db1.StoreRecordUnsafe exampleEnv t D).2 ∧
    (((exampleDb.StoreRecordUnsafe exampleEnv (db1.StoreRecordUnsafe exampleEnv t D).2 D).2).filter
        (fun x => decide (x.key = ("k", "a", "abc", 3))) = [⟨"k", "a", "zabc", "abc", 3⟩]) ∧
      (exampleDb.FindRecordUnsafe exampleEnv
        (exampleDb.StoreRecordUnsafe exampleEnv (db1.StoreRecordUnsafe exampleEnv t D).2 D).2
          D).1 = .ok (some "abc") :=
  ⟨(C7_key_collision_replace ⟨"kern.db", fun s => (String.mk ('y' :: s.data), true),
      fun s n => String.mk ((s.data.drop 1).take n)⟩ exampleDb exampleDb exampleEnv
      [⟨"k", "b", "zxyz", "xyz", 3⟩] ⟨"k", "a", "abc"⟩ ⟨"k", "a", "abc"⟩ (by decide) (by decide)
      ⟨by decide, rfl⟩ (by decide)).1,
    (C7_key_collision_replace ⟨"kern.db", fun s => (String.mk ('y' :: s.data), true),
      fun s n => String.mk ((s.data.drop 1).take n)⟩ exampleDb exampleDb exampleEnv
      [⟨"k", "b", "zxyz", "xyz", 3⟩] ⟨"k", "a", "abc"⟩ ⟨"k", "a", "abc"⟩ (by decide) (by decide)
      ⟨by decide, rfl⟩ (by decide)).2.1,
    (C7_key_collision_replace ⟨"kern.db", fun s => (String.mk ('y' :: s.data), true),
      fun s n => String.mk ((s.data.drop 1).take n)⟩ exampleDb exampleDb exampleEnv
      [⟨"k", "b", "zxyz", "xyz", 3⟩] ⟨"k", "a", "abc"⟩ ⟨"k", "a", "abc"⟩ (by decide) (by decide)
      ⟨by decide, rfl⟩ (by decide)).2.2 (by decide) (fun t => List.Perm.refl t) (by decide)
      (by decide) (by decide) (by decide)⟩

/-- C7 (as stated) fails at its last part in two ways, each for every hash function `md5`,
on the empty table, for two calls that store the payload `p` through two handles whose
codecs give different bytes (so the 4-tuple is the same and the stored bytes differ).
(1) The second handle's `decompress_fn` gives back `q`: one row is left, holding the bytes
of the second call, and `FindRecordUnsafe` does not return `p`.  (2) Both codecs
round-trip and the name is `a''b`: `FindRecordUnsafe` returns absent. -/
theorem C7_counterexample :
    (∀ md5 : String → String,
      let db1 : KernDb := ⟨"kern.db", fun _ => ("x", true), fun _ _ => "q"⟩
      let db2 : KernDb := ⟨"kern.db", fun _ => ("y", true), fun _ _ => "q"⟩
      let D : KernelConfig := ⟨"k", "a", "p"⟩
      let t2 := (db2.StoreRecordUnsafe (rowidEnv md5)
        (db1.StoreRecordUnsafe (rowidEnv md5) [] D).2 D).2
      (db1.encode (rowidEnv md5) D).key = (db2.encode (rowidEnv md5) D).key ∧
      (db1.encode (rowidEnv md5) D).kernel_blob ≠ (db2.encode (rowidEnv md5) D).kernel_blob ∧
      t2 = [⟨"k", "a", "y", md5 "p", 1⟩] ∧
      (db2.FindRecordUnsafe (rowidEnv md5) t2 D).1 ≠ .ok (some "p")) ∧
    (∀ md5 : String → String,
      let db1 : KernDb := ⟨"kern.db", fun s => (String.mk ('y' :: s.data), true),
        fun s n => String.mk ((s.data.drop 1).take n)⟩
      let D : KernelConfig := ⟨"a''b", "x", "p"⟩
      let t2 := (exampleDb.StoreRecordUnsafe (rowidEnv md5)
        (db1.StoreRecordUnsafe (rowidEnv md5) [] D).2 D).2
      (db1.encode (rowidEnv md5) D).key = (exampleDb.encode (rowidEnv md5) D).key ∧
      (db1.encode (rowidEnv md5) D).kernel_blob ≠
        (exampleDb.encode (rowidEnv md5) D).kernel_blob ∧
      t2 = [⟨"a''b", "x", "zp", md5 "p", 1⟩] ∧
      exampleDb.decode ⟨"a''b", "x", "zp", md5 "p", 1⟩ = "p" ∧
      (exampleDb.FindRecordUnsafe (rowidEnv md5) t2 D).1 = .ok none) := by
  refine ⟨?_, ?_⟩
  · intro md5 db1 db2 D t2
    have ht2 : t2 = [⟨"k", "a", "y", md5 "p", 1⟩] := by
      show insertOrReplace (insertOrReplace [] ⟨"k", "a", "x", md5 "p", 1⟩)
        ⟨"k", "a", "y", md5 "p", 1⟩ = _
      simp [insertOrReplace, Row.key]
    refine ⟨rfl, (by decide : ¬ "x" = "y"), ht2, ?_⟩
    rw [ht2, Find_unique_match db2 (rowidEnv md5) _ D ⟨"k", "a", "y", md5 "p", 1⟩ (by decide)
      (rowidEnv_Runs md5) (rowidEnv_VisitsEachRow md5) (by decide) (by decide) (by simp) rfl
      (by simp)]
    have hd : db2.decode ⟨"k", "a", "y", md5 "p", 1⟩ = "q" := rfl
    rw [hd]
    split
    · simp
    · show ¬ (Except.ok (some "q") : Except Exception (Option String)) = .ok (some "p")
      decide
  · intro md5 db1 D t2
    have ht2 : t2 = [⟨"a''b", "x", "zp", md5 "p", 1⟩] := by
      show insertOrReplace (insertOrReplace [] ⟨"a''b", "x", "yp", md5 "p", 1⟩)
        ⟨"a''b", "x", "zp", md5 "p", 1⟩ = _
      simp [insertOrReplace, Row.key]
    refine ⟨rfl, (by decide : ¬ "yp" = "zp"), ht2, rfl, ?_⟩
    rw [ht2]
    rfl

/-! ## C8 -/

theorem Unique_filter (t : List Row) (p : Row → Bool) (h : Unique t) : Unique (t.filter p) :=
  List.Nodup.sublist ((List.filter_sublist t).map Row.key) h

theorem Unique_insertOrReplace (t : List Row) (r : Row) (h : Unique t) :
    Unique (insertOrReplace t r) := by
  unfold Unique insertOrReplace
  rw [List.map_append, List.nodup_append]
  refine ⟨Unique_filter t _ h, by simp, ?_⟩
  intro k hk hk'
  simp only [List.map_cons, List.map_nil, List.mem_singleton] at hk'
  subst hk'
  simp only [List.mem_map, List.mem_filter] at hk
  obtain ⟨x, ⟨_, hx⟩, hxk⟩ := hk
  simp [hxk] at hx

theorem Unique_run (env : Env) (s : Stmt) (t : List Row) (h : Unique t) :
    Unique (env.run s t).2 := by
  unfold Env.run
  split
  · split <;> exact h
  · exact Unique_filter t _ h
  · exact Unique_insertOrReplace t _ h
  · exact h

theorem Unique_sqlite3_step (env : Env) (s : Stmt) (t : List Row) (n : Nat) (h : Unique t) :
    Unique (env.sqlite3_step s t n).2 := by
  unfold Env.sqlite3_step
  split
  · exact h
  · split
    · exact h
    · exact Unique_run env s t h

theorem Unique_SQLRetyLoop (f : Nat → StepResult × List Row) (t : List Row) (h : Unique t)
    (hf : ∀ n, Unique (f n).2) : ∀ tries attempt, Unique (SQLRetyLoop f t tries attempt).2 := by
  intro tries
  induction tries with
  | zero => intro attempt; exact h
  | succ n ih =>
    intro attempt
    rw [SQLRetyLoop]
    split
    · exact ih (attempt + 1)
    · rename_i rc t1 _ heq
      have := hf attempt
      rw [heq] at this
      exact this

theorem Unique_SQLRety (env : Env) (s : Stmt) (t : List Row) (h : Unique t) :
    Unique (env.SQLRety s t).2 :=
  Unique_SQLRetyLoop _ t h (fun n => Unique_sqlite3_step env s t n h) _ _

theorem Unique_Store (db : KernDb) (env : Env) (t : List Row) (c : KernelConfig)
    (h : Unique t) : Unique (db.StoreRecordUnsafe env t c).2 := by
  unfold KernDb.StoreRecordUnsafe
  split
  · exact h
  · have hs : Unique (db.insertStep env t c).2 := by
      unfold KernDb.insertStep
      simp only []
      split
      · exact h
      · exact Unique_SQLRety env _ t h
    split <;> simp_all

theorem Unique_Remove (db : KernDb) (env : Env) (t : List Row) (c : KernelConfig)
    (h : Unique t) : Unique (db.RemoveRecordUnsafe env t c).2 := by
  unfold KernDb.RemoveRecordUnsafe
  split
  · exact h
  · have hs : Unique (KernDb.deleteStep env t c).2 := by
      unfold KernDb.deleteStep
      simp only []
      split
      · exact h
      · exact Unique_SQLRety env _ t h
    split <;> simp_all

theorem Unique_Find (db : KernDb) (env : Env) (t : List Row) (c : KernelConfig)
    (h : Unique t) : Unique (db.FindRecordUnsafe env t c).2 := by
  unfold KernDb.FindRecordUnsafe
  split
  · exact h
  · have hs : Unique (KernDb.selectStep env t c).2 := by
      unfold KernDb.selectStep
      simp only []
      split
      · exact h
      · exact Unique_SQLRety env _ t h
    split
    · simp_all
    · simp only []
      split <;> simp_all
    · simp_all
    · simp_all

theorem Unique_after (call : Call) (t : List Row) (h : Unique t) : Unique (call.after t) := by
  cases call with
  | Store db env c => exact Unique_Store db env t c h
  | Remove db env c => exact Unique_Remove db env t c h
  | Find db env c => exact Unique_Find db env t c h

theorem Unique_runCalls (calls : List Call) : ∀ t, Unique t → Unique (runCalls calls t) := by
  induction calls with
  | nil => intro t h; exact h
  | cons c cs ih => intro t h; exact ih _ (Unique_after c t h)

/-- C8: in every table reached from the empty table by a sequence of `StoreRecordUnsafe`,
`RemoveRecordUnsafe` and `FindRecordUnsafe` calls (through any handles, on any engines,
whether the calls return or throw), no two rows share the same (kernel_name, kernel_args,
kernel_hash, uncompressed_size). -/
theorem C8_uniqueness_invariant (calls : List Call) : Unique (runCalls calls []) :=
  Unique_runCalls calls [] (by simp [Unique])

/-! ## C9 -/

/-- C9 (as amended): on an enabled cache and an engine that runs its statements and visits
each row, for a name and args that hold no single quote and no NUL byte, a table with no
row of that name and args, and two payloads each of which, when `compress_fn` reports
success for it, is non-empty, shorter than 2^32 bytes and restored by `decompress_fn`: two
`StoreRecordUnsafe` calls with that name and args whose rows differ in `kernel_hash` or in
`uncompressed_size` append two rows, the row of the first call being left as it was; these
are exactly the rows with that name and args; and a following `FindRecordUnsafe` returns
the payload of the first call or the payload of the second. -/
theorem C9_distinct_hash_non_replace (db : KernDb) (env : Env) (t : List Row)
    (D : KernelConfig) (B2 : String)
    (he : db.filename ≠ "") (hr : env.Runs) (hv : env.VisitsEachRow)
    (hn : sqlSafe D.kernel_name) (ha : sqlSafe D.kernel_args)
    (hfresh : ∀ x ∈ t, D.selects x = false)
    (hdiff : env.md5 D.kernel_blob ≠ env.md5 B2 ∨
      (db.encode env D).uncompressed_size ≠
        (db.encode env ⟨D.kernel_name, D.kernel_args, B2⟩).uncompressed_size)
    (hc1 : (db.compress_fn D.kernel_blob).2 = true →
      0 < D.kernel_blob.length ∧ D.kernel_blob.length < 2 ^ 32 ∧
        db.decompress_fn (db.compress_fn D.kernel_blob).1 D.kernel_blob.length =
          D.kernel_blob)
    (hc2 : (db.compress_fn B2).2 = true →
      0 < B2.length ∧ B2.length < 2 ^ 32 ∧
        db.decompress_fn (db.compress_fn B2).1 B2.length = B2) :
    (db.StoreRecordUnsafe env (db.StoreRecordUnsafe env t D).2
        ⟨D.kernel_name, D.kernel_args, B2⟩).2 =
      t ++ [db.encode env D, db.encode env ⟨D.kernel_name, D.kernel_args, B2⟩] ∧
    ((db.StoreRecordUnsafe env (db.StoreRecordUnsafe env t D).2
        ⟨D.kernel_name, D.kernel_args, B2⟩).2).filter D.selects =
      [db.encode env D, db.encode env ⟨D.kernel_name, D.kernel_args, B2⟩] ∧
    ((db.FindRecordUnsafe env (db.StoreRecordUnsafe env (db.StoreRecordUnsafe env t D).2
        ⟨D.kernel_name, D.kernel_args, B2⟩).2 D).1 = .ok (some D.kernel_blob) ∨
      (db.FindRecordUnsafe env (db.StoreRecordUnsafe env (db.StoreRecordUnsafe env t D).2
        ⟨D.kernel_name, D.kernel_args, B2⟩).2 D).1 = .ok (some B2)) := by
  set D2 : KernelConfig := ⟨D.kernel_name, D.kernel_args, B2⟩ with hD2
  set r1 := db.encode env D with hr1
  set r2 := db.encode env D2 with hr2
  have hsel1 : D.selects r1 = true := encode_selects db env D
  have hsel2 : D.selects r2 = true := encode_selects db env D2
  have hkey : r1.key ≠ r2.key := by
    intro h
    simp only [Row.key, Prod.mk.injEq] at h
    rcases hdiff with hd | hd
    · apply hd
      have := h.2.2.1
      rwa [hr1, hr2, encode_hash, encode_hash] at this
    · exact hd h.2.2.2
  have ht1 : (db.StoreRecordUnsafe env t D).2 = t ++ [r1] := by
    rw [Store_runs db env t D he hr]
    exact insertOrReplace_fresh t _
      (fun x hx => key_ne_of_not_selects D x _ (hfresh x hx) hsel1)
  have ht2 : (db.StoreRecordUnsafe env (db.StoreRecordUnsafe env t D).2 D2).2 =
      t ++ [r1, r2] := by
    rw [Store_runs db env _ D2 he hr, ht1, insertOrReplace_fresh]
    · simp
    · intro x hx
      rcases List.mem_append.1 hx with hxt | hx1
      · exact key_ne_of_not_selects D x _ (hfresh x hxt) hsel2
      · rw [List.mem_singleton.1 hx1]; exact hkey
  have hfil : (t ++ [r1, r2]).filter D.selects = [r1, r2] := by
    rw [List.filter_append, List.filter_eq_nil_iff.2 (fun x hx => by simp [hfresh x hx])]
    simp [List.filter, hsel1, hsel2]
  refine ⟨ht2, by rw [ht2, hfil], ?_⟩
  rw [ht2, Find_runs db env _ D he hr hn ha]
  have hd1 : db.decode r1 = D.kernel_blob := decode_encode db env D hc1
  have hd2 : db.decode r2 = B2 := decode_encode db env D2 hc2
  have hh1 : r1.kernel_hash = env.md5 D.kernel_blob := encode_hash db env D
  have hh2 : r2.kernel_hash = env.md5 B2 := encode_hash db env D2
  cases hfd : (env.order (t ++ [r1, r2])).find? D.selects with
  | none =>
    have := List.find?_eq_none.1 hfd r1 ((hv _).mem_iff.2 (by simp))
    simp [hsel1] at this
  | some x =>
    have hx : x ∈ (t ++ [r1, r2]).filter D.selects :=
      List.mem_filter.2 ⟨(hv _).mem_iff.1 (List.mem_of_find?_eq_some hfd), List.find?_some hfd⟩
    rw [hfil] at hx
    simp only [List.mem_cons, List.mem_singleton, List.not_mem_nil, or_false] at hx
    rcases hx with rfl | rfl
    · left; simp [hd1, hh1]
    · right; simp [hd2, hh2]

/-- C9 at a concrete input: two payloads of the same length and different hashes. -/
theorem C9_distinct_hash_non_replace_witness :
    (exampleDb.StoreRecordUnsafe exampleEnv
        (exampleDb.StoreRecordUnsafe exampleEnv [⟨"k", "b", "zxyz", "xyz", 3⟩]
          ⟨"k", "a", "abc"⟩).2 ⟨"k", "a", "abd"⟩).2 =
      [⟨"k", "b", "zxyz", "xyz", 3⟩] ++
        [⟨"k", "a", "zabc", "abc", 3⟩, ⟨"k", "a", "zabd", "abd", 3⟩] ∧
    ((exampleDb.StoreRecordUnsafe exampleEnv
        (exampleDb.StoreRecordUnsafe exampleEnv [⟨"k", "b", "zxyz", "xyz", 3⟩]
          ⟨"k", "a", "abc"⟩).2 ⟨"k", "a", "abd"⟩).2).filter
        (KernelConfig.selects ⟨"k", "a", "abc"⟩) =
      [⟨"k", "a", "zabc", "abc", 3⟩, ⟨"k", "a", "zabd", "abd", 3⟩] ∧
    ((exampleDb.FindRecordUnsafe exampleEnv (exampleDb.StoreRecordUnsafe exampleEnv
        (exampleDb.StoreRecordUnsafe exampleEnv [⟨"k", "b", "zxyz", "xyz", 3⟩]
          ⟨"k", "a", "abc"⟩).2 ⟨"k", "a", "abd"⟩).2 ⟨"k", "a", "abc"⟩).1 = .ok (some "abc") ∨
      (exampleDb.FindRecordUnsafe exampleEnv (exampleDb.StoreRecordUnsafe exampleEnv
        (exampleDb.StoreRecordUnsafe exampleEnv [⟨"k", "b", "zxyz", "xyz", 3⟩]
          ⟨"k", "a", "abc"⟩).2 ⟨"k", "a", "abd"⟩).2 ⟨"k", "a", "abc"⟩).1 = .ok (some "abd")) :=
  C9_distinct_hash_non_replace exampleDb exampleEnv [⟨"k", "b", "zxyz", "xyz", 3⟩]
    ⟨"k", "a", "abc"⟩ "abd" (by decide) ⟨by decide, rfl⟩ (fun t => List.Perm.refl t)
    (by decide) (by decide) (by decide) (by decide) (by decide) (by decide)

/-- C9 (as stated) fails at its last part in two ways, each for every hash function `md5`
and on the empty table, for two payloads of different lengths on which the codec
round-trips.  (1) For the name `a''b` two rows are written and `FindRecordUnsafe` returns
absent.  (2) For a first payload of 2^32 bytes `x` and the second payload `x`, two rows
are written, rowid order yields the first (and so does an engine that walks the unique
index, the MD5 of the first payload being below the MD5 of `x`), the codec is asked for 0
bytes, and `FindRecordUnsafe` returns neither payload. -/
theorem C9_counterexample :
    (∀ md5 : String → String,
      let D : KernelConfig := ⟨"a''b", "x", "p"⟩
      let D2 : KernelConfig := ⟨"a''b", "x", "pq"⟩
      let t2 := (exampleDb.StoreRecordUnsafe (rowidEnv md5)
        (exampleDb.StoreRecordUnsafe (rowidEnv md5) [] D).2 D2).2
      exampleDb.decompress_fn (exampleDb.compress_fn "p").1 "p".length = "p" ∧
      exampleDb.decompress_fn (exampleDb.compress_fn "pq").1 "pq".length = "pq" ∧
      t2 = [⟨"a''b", "x", "zp", md5 "p", 1⟩, ⟨"a''b", "x", "zpq", md5 "pq", 2⟩] ∧
      (exampleDb.FindRecordUnsafe (rowidEnv md5) t2 D).1 = .ok none) ∧
    (∀ md5 : String → String,
      let D : KernelConfig := ⟨"k", "a", bigBlob⟩
      let D2 : KernelConfig := ⟨"k", "a", "x"⟩
      let t2 := (lengthDb.StoreRecordUnsafe (rowidEnv md5)
        (lengthDb.StoreRecordUnsafe (rowidEnv md5) [] D).2 D2).2
      lengthDb.decompress_fn (lengthDb.compress_fn bigBlob).1 bigBlob.length = bigBlob ∧
      lengthDb.decompress_fn (lengthDb.compress_fn "x").1 "x".length = "x" ∧
      t2 = [⟨"k", "a", "z", md5 bigBlob, 2 ^ 32⟩, ⟨"k", "a", "z", md5 "x", 1⟩] ∧
      (lengthDb.FindRecordUnsafe (rowidEnv md5) t2 D).1 ≠ .ok (some bigBlob) ∧
      (lengthDb.FindRecordUnsafe (rowidEnv md5) t2 D).1 ≠ .ok (some "x")) := by
  refine ⟨?_, ?_⟩
  · intro md5 D D2 t2
    have ht2 : t2 = [⟨"a''b", "x", "zp", md5 "p", 1⟩, ⟨"a''b", "x", "zpq", md5 "pq", 2⟩] := by
      show insertOrReplace (insertOrReplace [] ⟨"a''b", "x", "zp", md5 "p", 1⟩)
        ⟨"a''b", "x", "zpq", md5 "pq", 2⟩ = _
      simp [insertOrReplace, Row.key]
    refine ⟨rfl, rfl, ht2, ?_⟩
    rw [ht2]
    rfl
  · intro md5 D D2 t2
    have hr1 : lengthDb.encode (rowidEnv md5) D = ⟨"k", "a", "z", md5 bigBlob, 2 ^ 32⟩ := by
      rw [encode_of_success lengthDb _ D rfl]
      show (⟨"k", "a", "z", md5 bigBlob, toInt64 bigBlob.length⟩ : Row) = _
      rw [bigBlob_length, toInt64_of_lt _ (by norm_num)]
      norm_num
    have ht2 : t2 = [⟨"k", "a", "z", md5 bigBlob, 2 ^ 32⟩, ⟨"k", "a", "z", md5 "x", 1⟩] := by
      show (lengthDb.StoreRecordUnsafe (rowidEnv md5)
        (lengthDb.StoreRecordUnsafe (rowidEnv md5) [] D).2 D2).2 = _
      rw [Store_runs lengthDb (rowidEnv md5) _ D2 (by decide) (rowidEnv_Runs md5),
        Store_runs lengthDb (rowidEnv md5) _ D (by decide) (rowidEnv_Runs md5), hr1]
      show insertOrReplace (insertOrReplace [] ⟨"k", "a", "z", md5 bigBlob, 2 ^ 32⟩)
        ⟨"k", "a", "z", md5 "x", 1⟩ = _
      simp [insertOrReplace, Row.key]
    have hfind : (lengthDb.FindRecordUnsafe (rowidEnv md5) t2 D).1 =
        if md5 "" ≠ md5 bigBlob then .error ⟨"Possible database corruption"⟩
        else .ok (some "") := by
      rw [ht2, Find_runs lengthDb (rowidEnv md5) _ D (by decide) (rowidEnv_Runs md5)
        (by decide) (by decide)]
      have hf : ((rowidEnv md5).order
          [⟨"k", "a", "z", md5 bigBlob, 2 ^ 32⟩, ⟨"k", "a", "z", md5 "x", 1⟩]).find?
            D.selects = some ⟨"k", "a", "z", md5 bigBlob, 2 ^ 32⟩ := rfl
      have hd : lengthDb.decode ⟨"k", "a", "z", md5 bigBlob, 2 ^ 32⟩ = "" := by
        rw [← hr1]; exact lengthDb_decode _ _ _ _ bigBlob_length
      simp only [hf, hd]
      rfl
    refine ⟨lengthDb_round_trip, rfl, ht2, ?_, ?_⟩
    · rw [hfind]
      split
      · simp
      · simp only [ne_eq, Except.ok.injEq, Option.some.injEq]
        exact bigBlob_ne_empty
    · rw [hfind]
      split
      · simp
      · show ¬ (Except.ok (some "") : Except Exception (Option String)) = .ok (some "x")
        decide

/-! ## C10 -/

/-- C10 (as amended): on an enabled cache and an engine that runs its statements, for
every table and every descriptor D whose name and args hold no single quote and no NUL
byte, `RemoveRecordUnsafe(D)` returns true, whether or not a row has D's name and args;
when no row has them the table is left as it was; and a second `RemoveRecordUnsafe(D)`
returns true and leaves the table of the first. -/
theorem C10_idempotent_delete (db : KernDb) (env : Env) (t : List Row) (D : KernelConfig)
    (he : db.filename ≠ "") (hr : env.Runs)
    (hn : sqlSafe D.kernel_name) (ha : sqlSafe D.kernel_args) :
    (db.RemoveRecordUnsafe env t D).1 = .ok true ∧
    ((∀ x ∈ t, D.selects x = false) → (db.RemoveRecordUnsafe env t D).2 = t) ∧
    db.RemoveRecordUnsafe env (db.RemoveRecordUnsafe env t D).2 D =
      (.ok true, (db.RemoveRecordUnsafe env t D).2) := by
  rw [Remove_runs db env t D he hr hn ha]
  refine ⟨rfl, ?_, ?_⟩
  · intro h
    exact List.filter_eq_self.2 (fun x hx => by simp [h x hx])
  · rw [Remove_runs db env _ D he hr hn ha]
    simp only [List.filter_filter, Bool.and_self]

/-- C10 at concrete inputs: a descriptor with two matching rows and a descriptor with none. -/
theorem C10_idempotent_delete_witness :
    let t : List Row := [⟨"k", "a", "zabc", "abc", 3⟩, ⟨"k", "b", "zxyz", "xyz", 3⟩,
      ⟨"k", "a", "abd", "abd", 0⟩]
    (exampleDb.RemoveRecordUnsafe exampleEnv t ⟨"k", "a", ""⟩) =
        (.ok true, [⟨"k", "b", "zxyz", "xyz", 3⟩]) ∧
    (exampleDb.RemoveRecordUnsafe exampleEnv t ⟨"k", "c", ""⟩) = (.ok true, t) ∧
    exampleDb.RemoveRecordUnsafe exampleEnv
        (exampleDb.RemoveRecordUnsafe exampleEnv t ⟨"k", "a", ""⟩).2 ⟨"k", "a", ""⟩ =
      (.ok true, [⟨"k", "b", "zxyz", "xyz", 3⟩]) :=
  ⟨Prod.ext (C10_idempotent_delete exampleDb exampleEnv
      [⟨"k", "a", "zabc", "abc", 3⟩, ⟨"k", "b", "zxyz", "xyz", 3⟩, ⟨"k", "a", "abd", "abd", 0⟩]
      ⟨"k", "a", ""⟩ (by decide) ⟨by decide, rfl⟩ (by decide) (by decide)).1 (by decide),
    Prod.ext (C10_idempotent_delete exampleDb exampleEnv
      [⟨"k", "a", "zabc", "abc", 3⟩, ⟨"k", "b", "zxyz", "xyz", 3⟩, ⟨"k", "a", "abd", "abd", 0⟩]
      ⟨"k", "c", ""⟩ (by decide) ⟨by decide, rfl⟩ (by decide) (by decide)).1
      ((C10_idempotent_delete exampleDb exampleEnv
      [⟨"k", "a", "zabc", "abc", 3⟩, ⟨"k", "b", "zxyz", "xyz", 3⟩, ⟨"k", "a", "abd", "abd", 0⟩]
      ⟨"k", "c", ""⟩ (by decide) ⟨by decide, rfl⟩ (by decide) (by decide)).2.1 (by decide)),
    (C10_idempotent_delete exampleDb exampleEnv
      [⟨"k", "a", "zabc", "abc", 3⟩, ⟨"k", "b", "zxyz", "xyz", 3⟩, ⟨"k", "a", "abd", "abd", 0⟩]
      ⟨"k", "a", ""⟩ (by decide) ⟨by decide, rfl⟩ (by decide) (by decide)).2.2⟩

/-- C10 (as stated) fails in two ways.  (1) For the name `a'b` the text of the `DELETE`
has an unpaired quote; the engine rejects it, and `RemoveRecordUnsafe` throws instead of
returning true.  (2) For the name `a''b`, on a table whose one row has the name `a'b`, no
row has the name and args of the descriptor, yet `RemoveRecordUnsafe` returns true and
the row is deleted. -/
theorem C10_counterexample :
    ((exampleDb.RemoveRecordUnsafe exampleEnv [] ⟨"a'b", "x", ""⟩).1 =
        .error ⟨"syntax error"⟩) ∧
    ((∀ x ∈ [(⟨"a'b", "x", "zabc", "abc", 3⟩ : Row)],
        KernelConfig.selects ⟨"a''b", "x", ""⟩ x = false) ∧
      exampleDb.RemoveRecordUnsafe exampleEnv [⟨"a'b", "x", "zabc", "abc", 3⟩]
        ⟨"a''b", "x", ""⟩ = (.ok true, [])) := by
  refine ⟨rfl, by decide, rfl⟩

/-! ## The retry executor on any engine -/

theorem SQLRetyLoop_eq (env : Env) (s : Stmt) (t : List Row) :
    ∀ tries attempt, attempt ≤ env.busy →
      SQLRetyLoop (env.sqlite3_step s t) t tries attempt =
        if env.busy < attempt + tries then
          (match env.fault with
            | some msg => (.ok (.failure msg), t)
            | none => (.ok (env.run s t).1, (env.run s t).2))
        else (.error ⟨"Timeout while waiting for Database"⟩, t) := by
  intro tries
  induction tries with
  | zero =>
    intro attempt h
    rw [SQLRetyLoop, if_neg (by omega)]
  | succ n ih =>
    intro attempt h
    rw [SQLRetyLoop]
    by_cases hb : attempt < env.busy
    · have e : env.sqlite3_step s t attempt = (.SQLITE_BUSY, t) := by
        simp [Env.sqlite3_step, hb]
      rw [e]
      simp only []
      rw [ih (attempt + 1) hb]
      have : attempt + 1 + n = attempt + (n + 1) := by omega
      rw [this]
    · rw [if_pos (by omega)]
      cases hf : env.fault with
      | some msg =>
        have e : env.sqlite3_step s t attempt = (.failure msg, t) := by
          simp [Env.sqlite3_step, hb, hf]
        rw [e]
      | none =>
        have e : env.sqlite3_step s t attempt = env.run s t := by
          simp [Env.sqlite3_step, hb, hf]
        rw [e]
        have hne := run_ne_busy env s t
        rcases hr : env.run s t with ⟨rc, t1⟩
        rw [hr] at hne
        cases rc <;> simp at hne ⊢

theorem SQLRety_eq (env : Env) (s : Stmt) (t : List Row) :
    env.SQLRety s t =
      if env.busy < env.max_tries then
        (match env.fault with
          | some msg => (.ok (.failure msg), t)
          | none => (.ok (env.run s t).1, (env.run s t).2))
      else (.error ⟨"Timeout while waiting for Database"⟩, t) := by
  have := SQLRetyLoop_eq env s t env.max_tries 0 (Nat.zero_le _)
  rw [Nat.zero_add] at this
  exact this

theorem SQLRety_fst_cases (env : Env) (s : Stmt) (t : List Row) :
    (env.Runs ∧ env.SQLRety s t = (.ok (env.run s t).1, (env.run s t).2)) ∨
    ((∃ msg, env.SQLRety s t = (.ok (.failure msg), t)) ∨
      env.SQLRety s t = (.error ⟨"Timeout while waiting for Database"⟩, t)) := by
  rw [SQLRety_eq]
  by_cases hb : env.busy < env.max_tries
  · rw [if_pos hb]
    cases hf : env.fault with
    | some msg => exact Or.inr (Or.inl ⟨msg, rfl⟩)
    | none => exact Or.inl ⟨⟨hb, hf⟩, rfl⟩
  · rw [if_neg hb]
    exact Or.inr (Or.inr rfl)

theorem Runs_of_Remove_ok (db : KernDb) (env : Env) (t : List Row) (c : KernelConfig)
    (he : db.filename ≠ "") (hn : sqlSafe c.kernel_name) (ha : sqlSafe c.kernel_args)
    (h : (db.RemoveRecordUnsafe env t c).1 = .ok true) : env.Runs := by
  simp only [KernDb.RemoveRecordUnsafe, if_neg he, KernDb.deleteStep,
    Prepare_delete env c hn ha] at h
  rcases SQLRety_fst_cases env (.delete c.selects) t with ⟨hr, _⟩ | ⟨msg, hm⟩ | ht
  · exact hr
  · rw [hm] at h; simp at h
  · rw [ht] at h; simp at h

/-! ## C11 -/

/-- C11 (as amended): on an enabled cache, for a descriptor D whose name and args hold no
single quote and no NUL byte, after a `RemoveRecordUnsafe(D)` that returned true the table
is the old table without the rows of D's name and args: no row of the new table has them
(whatever its hash and size), a row with another name or other args is in the new table
exactly when it was in the old one, and (on an engine that visits each row)
`FindRecordUnsafe(D)` returns absent. -/
theorem C11_remove_deletes_selected (db : KernDb) (env : Env) (t : List Row)
    (D : KernelConfig) (he : db.filename ≠ "")
    (hn : sqlSafe D.kernel_name) (ha : sqlSafe D.kernel_args)
    (hok : (db.RemoveRecordUnsafe env t D).1 = .ok true) :
    (db.RemoveRecordUnsafe env t D).2 = t.filter (fun r => !D.selects r) ∧
    (∀ x ∈ (db.RemoveRecordUnsafe env t D).2,
      ¬ (x.kernel_name = D.kernel_name ∧ x.kernel_args = D.kernel_args)) ∧
    (∀ x : Row, (x.kernel_name ≠ D.kernel_name ∨ x.kernel_args ≠ D.kernel_args) →
      (x ∈ (db.RemoveRecordUnsafe env t D).2 ↔ x ∈ t)) ∧
    (env.VisitsEachRow →
      db.FindRecordUnsafe env (db.RemoveRecordUnsafe env t D).2 D =
        (.ok none, (db.RemoveRecordUnsafe env t D).2)) := by
  have hr : env.Runs := Runs_of_Remove_ok db env t D he hn ha hok
  rw [Remove_runs db env t D he hr hn ha]
  refine ⟨rfl, ?_, ?_, ?_⟩
  · intro x hx
    simp only [List.mem_filter, KernelConfig.selects, Bool.not_eq_true', Bool.and_eq_false_imp,
      decide_eq_true_eq, decide_eq_false_iff_not] at hx
    exact fun h => hx.2 h.1 h.2
  · intro x hx
    simp only [List.mem_filter, KernelConfig.selects, Bool.not_eq_true', Bool.and_eq_false_imp,
      decide_eq_true_eq, decide_eq_false_iff_not, and_iff_left_iff_imp]
    intro _ h1 h2
    rcases hx with h | h
    · exact h h1
    · exact h h2
  · intro hv
    rw [Find_runs db env _ D he hr hn ha]
    have : (env.order (t.filter (fun r => !D.selects r))).find? D.selects = none := by
      rw [List.find?_eq_none]
      intro x hx
      have hx' := (hv _).mem_iff.1 hx
      simp only [List.mem_filter, Bool.not_eq_true'] at hx'
      simp [hx'.2]
    rw [this]

/-- C11 at a concrete input: of four rows, the two with the name and args of the
descriptor are removed, whatever their hash and size, and the other two are left. -/
theorem C11_remove_deletes_selected_witness :
    let t : List Row := [⟨"k", "a", "zabc", "abc", 3⟩, ⟨"k", "b", "zxyz", "xyz", 3⟩,
      ⟨"k", "a", "abd", "abd", 0⟩, ⟨"j", "a", "zabc", "abc", 3⟩]
    (exampleDb.RemoveRecordUnsafe exampleEnv t ⟨"k", "a", ""⟩).2 =
        [⟨"k", "b", "zxyz", "xyz", 3⟩, ⟨"j", "a", "zabc", "abc", 3⟩] ∧
      exampleDb.FindRecordUnsafe exampleEnv
        (exampleDb.RemoveRecordUnsafe exampleEnv t ⟨"k", "a", ""⟩).2 ⟨"k", "a", ""⟩ =
        (.ok none, [⟨"k", "b", "zxyz", "xyz", 3⟩, ⟨"j", "a", "zabc", "abc", 3⟩]) :=
  ⟨(C11_remove_deletes_selected exampleDb exampleEnv
      [⟨"k", "a", "zabc", "abc", 3⟩, ⟨"k", "b", "zxyz", "xyz", 3⟩,
        ⟨"k", "a", "abd", "abd", 0⟩, ⟨"j", "a", "zabc", "abc", 3⟩]
      ⟨"k", "a", ""⟩ (by decide) (by decide) (by decide) (by decide)).1,
    (C11_remove_deletes_selected exampleDb exampleEnv
      [⟨"k", "a", "zabc", "abc", 3⟩, ⟨"k", "b", "zxyz", "xyz", 3⟩,
        ⟨"k", "a", "abd", "abd", 0⟩, ⟨"j", "a", "zabc", "abc", 3⟩]
      ⟨"k", "a", ""⟩ (by decide) (by decide) (by decide) (by decide)).2.2.2
      (fun t => List.Perm.refl t)⟩

/-- C11 (as stated) fails for the name `a''b`: `Where()` writes it into the text as it is,
the `DELETE` removes the rows named `a'b`, and `RemoveRecordUnsafe` returns true.  So the
row that has the name and args of the descriptor is still in the table, and the row with
another name is gone. -/
theorem C11_counterexample :
    exampleDb.RemoveRecordUnsafe exampleEnv
        [⟨"a''b", "x", "zabc", "abc", 3⟩, ⟨"a'b", "x", "zxyz", "xyz", 3⟩] ⟨"a''b", "x", ""⟩ =
      (.ok true, [⟨"a''b", "x", "zabc", "abc", 3⟩]) ∧
    (⟨"a''b", "x", "zabc", "abc", 3⟩ : Row).kernel_name = "a''b" ∧
    (⟨"a''b", "x", "zabc", "abc", 3⟩ : Row).kernel_args = "x" ∧
    (⟨"a'b", "x", "zxyz", "xyz", 3⟩ : Row).kernel_name ≠ "a''b" := by
  refine ⟨by decide, rfl, rfl, by decide⟩

/-! ## C12 -/

/-- C12: on an enabled cache, for every descriptor, table, codec and engine, when the
insert step reports `SQLITE_DONE`, `StoreRecordUnsafe` returns a present value that is the
`kernel_blob` of the descriptor (not the compressed bytes the row holds, and not a value
read from the table); and on an engine that runs its statements the insert step does
report `SQLITE_DONE`. -/
theorem C12_store_echo (db : KernDb) (env : Env) (t : List Row) (D : KernelConfig)
    (he : db.filename ≠ "") :
    ((db.insertStep env t D).1 = .ok .SQLITE_DONE →
      (db.StoreRecordUnsafe env t D).1 = .ok (some D.kernel_blob)) ∧
    (env.Runs → (db.insertStep env t D).1 = .ok .SQLITE_DONE) := by
  constructor
  · intro h
    simp only [KernDb.StoreRecordUnsafe, if_neg he]
    rcases hs : db.insertStep env t D with ⟨res, t1⟩
    rw [hs] at h
    simp only at h
    subst h
    rfl
  · intro hr
    rw [insertStep_runs db env t D hr]

/-- C12 at a concrete input: the codec succeeds, the row holds `zabc`, and `abc` is
returned. -/
theorem C12_store_echo_witness :
    (exampleDb.StoreRecordUnsafe exampleEnv [] ⟨"k", "a", "abc"⟩) =
      (.ok (some "abc"), [⟨"k", "a", "zabc", "abc", 3⟩]) :=
  Prod.ext
    ((C12_store_echo exampleDb exampleEnv [] ⟨"k", "a", "abc"⟩ (by decide)).1 (by decide))
    (by decide)

/-! ## C13 -/

theorem SQLRety_snd (env : Env) (s : Stmt) (t : List Row) :
    (env.SQLRety s t).2 = t ∨ (env.SQLRety s t).2 = (env.run s t).2 := by
  rcases SQLRety_fst_cases env s t with ⟨_, h⟩ | ⟨msg, h⟩ | h <;> rw [h] <;> simp

theorem selectStep_snd (env : Env) (t : List Row) (c : KernelConfig) :
    (KernDb.selectStep env t c).2 = t := by
  unfold KernDb.selectStep
  simp only []
  cases hp : env.Prepare ("SELECT kernel_blob, kernel_hash, uncompressed_size FROM " ++
      KernelConfig.table_name ++ " WHERE " ++ c.Where ++ ";") with
  | error e => rfl
  | ok s =>
    simp only []
    have hs : ∃ p, s = .select p := by
      unfold Env.Prepare at hp
      split at hp
      · split at hp
        · exact ⟨_, (Except.ok.inj hp).symm⟩
        · cases hp
      · rename_i hnone
        exfalso
        have e : ("SELECT kernel_blob, kernel_hash, uncompressed_size FROM " ++
            KernelConfig.table_name ++ " WHERE " ++ c.Where ++ ";").data =
            selectPrefix.data ++ (c.Where ++ ";").data := by
          simp only [String.data_append, List.append_assoc]
          rfl
        rw [e, stripPrefix_append] at hnone
        cases hnone
    obtain ⟨p, rfl⟩ := hs
    rcases SQLRety_snd env (.select p) t with h | h
    · exact h
    · rw [h]
      unfold Env.run
      simp only []
      split <;> rfl

theorem Find_snd (db : KernDb) (env : Env) (t : List Row) (c : KernelConfig) :
    (db.FindRecordUnsafe env t c).2 = t := by
  unfold KernDb.FindRecordUnsafe
  split
  · rfl
  · have hs := selectStep_snd env t c
    split
    · simp_all
    · simp only []
      split <;> simp_all
    · simp_all
    · simp_all

theorem Store_snd (db : KernDb) (env : Env) (t : List Row) (c : KernelConfig) :
    (db.StoreRecordUnsafe env t c).2 = t ∨
      (db.StoreRecordUnsafe env t c).2 = insertOrReplace t (db.encode env c) := by
  unfold KernDb.StoreRecordUnsafe
  split
  · exact Or.inl rfl
  · have hs : (db.insertStep env t c).2 = t ∨
        (db.insertStep env t c).2 = insertOrReplace t (db.encode env c) := by
      simp only [KernDb.insertStep, Prepare_insert, Stmt.bind]
      rcases SQLRety_snd env (.insert (some (db.encode env c))) t with h | h
      · exact Or.inl h
      · exact Or.inr (by rw [h]; rfl)
    split <;> simp_all

/-- C13: for every handle, engine, table and descriptor, whether the call returns or
throws: `FindRecordUnsafe` leaves the table as it was; `StoreRecordUnsafe` leaves it as it
was or leaves the upsert of its one row, that is the old rows whose (kernel_name,
kernel_args, kernel_hash, uncompressed_size) differs from that of the new row, in their
old order, followed by the new row.  So every row of the new table is an old row or the
new row, and every old row with another 4-tuple (also one with the same name and args and
another hash or size) is still there. -/
theorem C13_lifecycle_frame (db : KernDb) (env : Env) (t : List Row) (D : KernelConfig) :
    (db.FindRecordUnsafe env t D).2 = t ∧
    ((db.StoreRecordUnsafe env t D).2 = t ∨
      (db.StoreRecordUnsafe env t D).2 =
        t.filter (fun x => !decide (x.key = (db.encode env D).key)) ++ [db.encode env D]) ∧
    (∀ x ∈ (db.StoreRecordUnsafe env t D).2, x ∈ t ∨ x = db.encode env D) ∧
    (∀ x ∈ t, x.key ≠ (db.encode env D).key → x ∈ (db.StoreRecordUnsafe env t D).2) := by
  refine ⟨Find_snd db env t D, Store_snd db env t D, ?_, ?_⟩
  · intro x hx
    rcases Store_snd db env t D with h | h
    · rw [h] at hx; exact Or.inl hx
    · rw [h] at hx
      rcases (mem_insertOrReplace _ _ _).1 hx with ⟨hxt, _⟩ | hxr
      · exact Or.inl hxt
      · exact Or.inr hxr
  · intro x hx hk
    rcases Store_snd db env t D with h | h
    · rw [h]; exact hx
    · rw [h]; exact (mem_insertOrReplace _ _ _).2 (Or.inl ⟨hx, hk⟩)

/-- C13 at a concrete input: the store replaces the row with its own 4-tuple and leaves
the row of the same name and args with another hash, and the row of another name. -/
theorem C13_lifecycle_frame_witness :
    let t : List Row := [⟨"k", "a", "yabc", "abc", 3⟩, ⟨"k", "a", "zabd", "abd", 3⟩,
      ⟨"j", "a", "zabc", "abc", 3⟩]
    (exampleDb.FindRecordUnsafe exampleEnv t ⟨"k", "a", ""⟩).2 = t ∧
    (exampleDb.StoreRecordUnsafe exampleEnv t ⟨"k", "a", "abc"⟩).2 =
      [⟨"k", "a", "zabd", "abd", 3⟩, ⟨"j", "a", "zabc", "abc", 3⟩,
        ⟨"k", "a", "zabc", "abc", 3⟩] ∧
    (⟨"k", "a", "zabd", "abd", 3⟩ : Row) ∈
      (exampleDb.StoreRecordUnsafe exampleEnv t ⟨"k", "a", "abc"⟩).2 :=
  ⟨(C13_lifecycle_frame exampleDb exampleEnv
      [⟨"k", "a", "yabc", "abc", 3⟩, ⟨"k", "a", "zabd", "abd", 3⟩,
        ⟨"j", "a", "zabc", "abc", 3⟩] ⟨"k", "a", ""⟩).1,
    by decide,
    (C13_lifecycle_frame exampleDb exampleEnv
      [⟨"k", "a", "yabc", "abc", 3⟩, ⟨"k", "a", "zabd", "abd", 3⟩,
        ⟨"j", "a", "zabc", "abc", 3⟩] ⟨"k", "a", "abc"⟩).2.2.2 _ (by decide) (by decide)⟩

/-! ## C14 -/

theorem insertStep_done (db : KernDb) (env : Env) (t : List Row) (c : KernelConfig)
    (h : (db.insertStep env t c).1 = .ok .SQLITE_DONE) :
    db.insertStep env t c = (.ok .SQLITE_DONE, insertOrReplace t (db.encode env c)) := by
  simp only [KernDb.insertStep, Prepare_insert, Stmt.bind] at h ⊢
  rcases SQLRety_fst_cases env (.insert (some (db.encode env c))) t with
    ⟨_, hr⟩ | ⟨msg, hm⟩ | ht
  · rw [hr]; rfl
  · rw [hm] at h; simp at h
  · rw [ht] at h; simp at h

/-- C14: on an enabled cache, for every engine, table and descriptor: `FindRecordUnsafe`
returns a value only when the step result is `SQLITE_ROW` or `SQLITE_DONE`, and
`StoreRecordUnsafe` and `RemoveRecordUnsafe` return a value only when it is `SQLITE_DONE`;
for any other step result each of the three throws the exception that carries
`SQLErrorMessage()`, and an exception of the prepare or of the retry wrapper is passed
on.  When `StoreRecordUnsafe` returns a value the upsert of its row has been made. -/
theorem C14_fatal_propagation (db : KernDb) (env : Env) (t : List Row) (D : KernelConfig)
    (he : db.filename ≠ "") :
    (∀ v, (db.FindRecordUnsafe env t D).1 = .ok v →
      (∃ r, (KernDb.selectStep env t D).1 = .ok (.SQLITE_ROW r)) ∨
        (KernDb.selectStep env t D).1 = .ok .SQLITE_DONE) ∧
    (∀ v, (db.StoreRecordUnsafe env t D).1 = .ok v →
      (db.insertStep env t D).1 = .ok .SQLITE_DONE ∧
        (db.StoreRecordUnsafe env t D).2 = insertOrReplace t (db.encode env D)) ∧
    (∀ v, (db.RemoveRecordUnsafe env t D).1 = .ok v →
      (KernDb.deleteStep env t D).1 = .ok .SQLITE_DONE) ∧
    (∀ rc, (KernDb.selectStep env t D).1 = .ok rc → (∀ r, rc ≠ .SQLITE_ROW r) →
      rc ≠ .SQLITE_DONE → (db.FindRecordUnsafe env t D).1 = .error ⟨rc.SQLErrorMessage⟩) ∧
    (∀ rc, (db.insertStep env t D).1 = .ok rc → rc ≠ .SQLITE_DONE →
      (db.StoreRecordUnsafe env t D).1 = .error ⟨rc.SQLErrorMessage⟩) ∧
    (∀ rc, (KernDb.deleteStep env t D).1 = .ok rc → rc ≠ .SQLITE_DONE →
      (db.RemoveRecordUnsafe env t D).1 = .error ⟨rc.SQLErrorMessage⟩) ∧
    (∀ e, (KernDb.selectStep env t D).1 = .error e →
      (db.FindRecordUnsafe env t D).1 = .error e) ∧
    (∀ e, (db.insertStep env t D).1 = .error e →
      (db.StoreRecordUnsafe env t D).1 = .error e) ∧
    (∀ e, (KernDb.deleteStep env t D).1 = .error e →
      (db.RemoveRecordUnsafe env t D).1 = .error e) := by
  have hstore : ∀ v, (db.StoreRecordUnsafe env t D).1 = .ok v →
      (db.insertStep env t D).1 = .ok .SQLITE_DONE := by
    intro v
    simp only [KernDb.StoreRecordUnsafe, if_neg he]
    rcases db.insertStep env t D with ⟨res, t1⟩
    rcases res with e | rc
    · simp
    · cases rc <;> simp
  refine ⟨?_, ?_, ?_, ?_, ?_, ?_, ?_, ?_, ?_⟩
  · intro v
    simp only [KernDb.FindRecordUnsafe, if_neg he]
    rcases KernDb.selectStep env t D with ⟨res, t1⟩
    rcases res with e | rc
    · simp
    · cases rc <;> simp
  · intro v hv
    refine ⟨hstore v hv, ?_⟩
    simp only [KernDb.StoreRecordUnsafe, if_neg he, insertStep_done db env t D (hstore v hv)]
  · intro v
    simp only [KernDb.RemoveRecordUnsafe, if_neg he]
    rcases KernDb.deleteStep env t D with ⟨res, t1⟩
    rcases res with e | rc
    · simp
    · cases rc <;> simp
  · intro rc
    simp only [KernDb.FindRecordUnsafe, if_neg he]
    rcases KernDb.selectStep env t D with ⟨res, t1⟩
    intro h h1 h2
    simp only at h
    subst h
    cases rc with
    | SQLITE_ROW r => exact absurd rfl (h1 r)
    | SQLITE_DONE => exact absurd rfl h2
    | SQLITE_BUSY => rfl
    | failure m => rfl
  · intro rc
    simp only [KernDb.StoreRecordUnsafe, if_neg he]
    rcases db.insertStep env t D with ⟨res, t1⟩
    intro h h2
    simp only at h
    subst h
    cases rc with
    | SQLITE_ROW r => rfl
    | SQLITE_DONE => exact absurd rfl h2
    | SQLITE_BUSY => rfl
    | failure m => rfl
  · intro rc
    simp only [KernDb.RemoveRecordUnsafe, if_neg he]
    rcases KernDb.deleteStep env t D with ⟨res, t1⟩
    intro h h2
    simp only at h
    subst h
    cases rc with
    | SQLITE_ROW r => rfl
    | SQLITE_DONE => exact absurd rfl h2
    | SQLITE_BUSY => rfl
    | failure m => rfl
  · intro e
    simp only [KernDb.FindRecordUnsafe, if_neg he]
    rcases KernDb.selectStep env t D with ⟨res, t1⟩
    intro h
    simp only at h
    subst h
    rfl
  · intro e
    simp only [KernDb.StoreRecordUnsafe, if_neg he]
    rcases db.insertStep env t D with ⟨res, t1⟩
    intro h
    simp only at h
    subst h
    rfl
  · intro e
    simp only [KernDb.RemoveRecordUnsafe, if_neg he]
    rcases KernDb.deleteStep env t D with ⟨res, t1⟩
    intro h
    simp only at h
    subst h
    rfl

/-- C14 at a concrete input: an engine that reports a disk error makes each of the three
calls throw with that text and leaves the table as it was. -/
theorem C14_fatal_propagation_witness :
    let env : Env := ⟨fun s => s, fun t => t, fun _ => .error "syntax error", 0, 1,
      some "disk I/O error"⟩
    let t : List Row := [⟨"k", "a", "zabc", "abc", 3⟩]
    exampleDb.FindRecordUnsafe env t ⟨"k", "a", ""⟩ = (.error ⟨"disk I/O error"⟩, t) ∧
    exampleDb.StoreRecordUnsafe env t ⟨"k", "a", "abd"⟩ = (.error ⟨"disk I/O error"⟩, t) ∧
    exampleDb.RemoveRecordUnsafe env t ⟨"k", "a", ""⟩ = (.error ⟨"disk I/O error"⟩, t) :=
  ⟨Prod.ext ((C14_fatal_propagation exampleDb
      ⟨fun s => s, fun t => t, fun _ => .error "syntax error", 0, 1, some "disk I/O error"⟩
      [⟨"k", "a", "zabc", "abc", 3⟩] ⟨"k", "a", ""⟩ (by decide)).2.2.2.1
        (.failure "disk I/O error") (by decide) (fun _ h => by cases h) (by decide))
      (by decide),
    Prod.ext ((C14_fatal_propagation exampleDb
      ⟨fun s => s, fun t => t, fun _ => .error "syntax error", 0, 1, some "disk I/O error"⟩
      [⟨"k", "a", "zabc", "abc", 3⟩] ⟨"k", "a", "abd"⟩ (by decide)).2.2.2.2.1
        (.failure "disk I/O error") (by decide) (by decide)) (by decide),
    Prod.ext ((C14_fatal_propagation exampleDb
      ⟨fun s => s, fun t => t, fun _ => .error "syntax error", 0, 1, some "disk I/O error"⟩
      [⟨"k", "a", "zabc", "abc", 3⟩] ⟨"k", "a", ""⟩ (by decide)).2.2.2.2.2.1
        (.failure "disk I/O error") (by decide) (by decide)) (by decide)⟩

/-! ## C15 -/

/-- C15: `Where()` is the text `(kernel_name = '` name `') AND (kernel_args = '` args `')`
with both values as they are.  The descriptors with name `a') AND (kernel_args = 'b`, args
`c` and with name `a`, args `b') AND (kernel_args = 'c` differ in name and args, the first
name holds a single quote, and their `Where()` texts are the same; so every
`FindRecordUnsafe` and `RemoveRecordUnsafe` gives the same result for both. -/
theorem C15_predicate_injection :
    (∀ c : KernelConfig, c.Where =
      "(kernel_name = '" ++ c.kernel_name ++ "') AND (kernel_args = '" ++
        c.kernel_args ++ "')") ∧
    (∃ c1 c2 : KernelConfig,
      c1 = ⟨"a') AND (kernel_args = 'b", "c", ""⟩ ∧
      c2 = ⟨"a", "b') AND (kernel_args = 'c", ""⟩ ∧
      (c1.kernel_name, c1.kernel_args) ≠ (c2.kernel_name, c2.kernel_args) ∧
      quote ∈ c1.kernel_name.data ∧
      c1.Where = "(kernel_name = 'a') AND (kernel_args = 'b') AND (kernel_args = 'c')" ∧
      c1.Where = c2.Where ∧
      (∀ (db : KernDb) (env : Env) (t : List Row),
        db.FindRecordUnsafe env t c1 = db.FindRecordUnsafe env t c2 ∧
        db.RemoveRecordUnsafe env t c1 = db.RemoveRecordUnsafe env t c2)) := by
  refine ⟨?_, ⟨"a') AND (kernel_args = 'b", "c", ""⟩, ⟨"a", "b') AND (kernel_args = 'c", ""⟩,
    rfl, rfl, by decide, by decide, by decide, by decide, ?_⟩
  · intro c
    apply String.ext
    simp [KernelConfig.Where, String.data_append]
  · intro db env t
    have hw : (⟨"a') AND (kernel_args = 'b", "c", ""⟩ : KernelConfig).Where =
        (⟨"a", "b') AND (kernel_args = 'c", ""⟩ : KernelConfig).Where := by decide
    simp only [KernDb.FindRecordUnsafe, KernDb.RemoveRecordUnsafe, KernDb.selectStep,
      KernDb.deleteStep, hw, and_self]

/-! ## C16 -/

set_option maxRecDepth 100000 in
/-- C16: `table_name()` is `kern_db`, and `CreateQuery()` is one fixed text: the
`CREATE TABLE IF NOT EXISTS` statement of the table `kern_db` with the columns `id`,
`kernel_name`, `kernel_args`, `kernel_blob`, `kernel_hash`, `uncompressed_size`, followed
by the `CREATE UNIQUE INDEX IF NOT EXISTS` statement of `idx_kern_db` over `(kernel_name,
kernel_args, kernel_hash, uncompressed_size)`. -/
theorem C16_schema_ddl :
    KernelConfig.table_name = "kern_db" ∧
    KernelConfig.CreateQuery =
      "CREATE TABLE IF NOT EXISTS `kern_db` (" ++
        "`id` INTEGER PRIMARY KEY ASC," ++
        "`kernel_name` TEXT NOT NULL," ++
        "`kernel_args` TEXT NOT NULL," ++
        "`kernel_blob` BLOB NOT NULL," ++
        "`kernel_hash` TEXT NOT NULL," ++
        "`uncompressed_size` INT NOT NULL);" ++
      ("CREATE UNIQUE INDEX IF NOT EXISTS `idx_kern_db` ON kern_db" ++
        "(kernel_name, kernel_args, kernel_hash, uncompressed_size);") := by
  exact ⟨rfl, by decide⟩

/-! ## C17 -/

theorem SQLRetyLoop_first_answer (f : Nat → StepResult × List Row) (t : List Row) :
    ∀ tries attempt k, attempt ≤ k → k < attempt + tries →
      (∀ j, attempt ≤ j → j < k → (f j).1 = .SQLITE_BUSY) → (f k).1 ≠ .SQLITE_BUSY →
      SQLRetyLoop f t tries attempt = (.ok (f k).1, (f k).2) := by
  intro tries
  induction tries with
  | zero => intro attempt k h1 h2; omega
  | succ n ih =>
    intro attempt k h1 h2 hb hk
    rw [SQLRetyLoop]
    by_cases hak : attempt = k
    · subst hak
      rcases hfa : f attempt with ⟨rc, t1⟩
      rw [hfa] at hk
      cases rc <;> simp at hk ⊢
    · have hbusy := hb attempt (Nat.le_refl _) (by omega)
      rcases hfa : f attempt with ⟨rc, t1⟩
      rw [hfa] at hbusy
      simp only at hbusy
      subst hbusy
      simp only []
      exact ih (attempt + 1) k (by omega) (by omega)
        (fun j hj1 hj2 => hb j (by omega) hj2) hk

theorem SQLRetyLoop_exhausted (f : Nat → StepResult × List Row) (t : List Row) :
    ∀ tries attempt, (∀ j, attempt ≤ j → j < attempt + tries → (f j).1 = .SQLITE_BUSY) →
      SQLRetyLoop f t tries attempt = (.error ⟨"Timeout while waiting for Database"⟩, t) := by
  intro tries
  induction tries with
  | zero => intro attempt _; rfl
  | succ n ih =>
    intro attempt hb
    rw [SQLRetyLoop]
    have hbusy := hb attempt (Nat.le_refl _) (by omega)
    rcases hfa : f attempt with ⟨rc, t1⟩
    rw [hfa] at hbusy
    simp only at hbusy
    subst hbusy
    simp only []
    exact ih (attempt + 1) (fun j hj1 hj2 => hb j (by omega) (by omega))

theorem SQLRetyLoop_congr (f g : Nat → StepResult × List Row) (t : List Row) :
    ∀ tries attempt, (∀ j, attempt ≤ j → j < attempt + tries → f j = g j) →
      SQLRetyLoop f t tries attempt = SQLRetyLoop g t tries attempt := by
  intro tries
  induction tries with
  | zero => intro attempt _; rfl
  | succ n ih =>
    intro attempt h
    rw [SQLRetyLoop, SQLRetyLoop, h attempt (Nat.le_refl _) (by omega),
      ih (attempt + 1) (fun j hj1 hj2 => h j (by omega) (by omega))]

/-- C17: the retry wrapper, with a bound `n` on its attempts, around a step `f` (the
`j`-th call answering `f j`).  It hands back the first answer that is not `SQLITE_BUSY`,
when that comes within `n` calls, so it calls again only after `SQLITE_BUSY`; when the
first `n` answers are all `SQLITE_BUSY` it throws; and its result depends on the first `n`
answers only, so it makes at most `n` calls.  On an engine that stays busy for `max_tries`
calls or more, each of the three operations of an enabled cache throws instead of
waiting on. -/
theorem C17_bounded_retry (f : Nat → StepResult × List Row) (t : List Row) (n : Nat) :
    (∀ k, k < n → (∀ j, j < k → (f j).1 = .SQLITE_BUSY) → (f k).1 ≠ .SQLITE_BUSY →
      SQLRetyLoop f t n 0 = (.ok (f k).1, (f k).2)) ∧
    ((∀ j, j < n → (f j).1 = .SQLITE_BUSY) →
      SQLRetyLoop f t n 0 = (.error ⟨"Timeout while waiting for Database"⟩, t)) ∧
    (∀ g : Nat → StepResult × List Row, (∀ j, j < n → f j = g j) →
      SQLRetyLoop f t n 0 = SQLRetyLoop g t n 0) ∧
    (∀ (db : KernDb) (env : Env) (D : KernelConfig), db.filename ≠ "" →
      env.max_tries ≤ env.busy →
      db.StoreRecordUnsafe env t D = (.error ⟨"Timeout while waiting for Database"⟩, t) ∧
      (∃ e, db.FindRecordUnsafe env t D = (.error e, t)) ∧
      (∃ e, db.RemoveRecordUnsafe env t D = (.error e, t))) := by
  refine ⟨?_, ?_, ?_, ?_⟩
  · intro k hk hb hne
    exact SQLRetyLoop_first_answer f t n 0 k (Nat.zero_le _) (by omega)
      (fun j _ hj => hb j hj) hne
  · intro hb
    exact SQLRetyLoop_exhausted f t n 0 (fun j _ hj => hb j (by omega))
  · intro g h
    exact SQLRetyLoop_congr f g t n 0 (fun j _ hj => h j (by omega))
  · intro db env D he hbusy
    have hto : ∀ s, env.SQLRety s t = (.error ⟨"Timeout while waiting for Database"⟩, t) := by
      intro s
      rw [SQLRety_eq, if_neg (by omega)]
    refine ⟨?_, ?_, ?_⟩
    · simp only [KernDb.StoreRecordUnsafe, if_neg he, KernDb.insertStep, Prepare_insert, hto]
    · simp only [KernDb.FindRecordUnsafe, if_neg he, KernDb.selectStep]
      cases env.Prepare ("SELECT kernel_blob, kernel_hash, uncompressed_size FROM " ++
        KernelConfig.table_name ++ " WHERE " ++ D.Where ++ ";") with
      | error e => exact ⟨e, rfl⟩
      | ok s => exact ⟨⟨"Timeout while waiting for Database"⟩, by simp only [hto]⟩
    · simp only [KernDb.RemoveRecordUnsafe, if_neg he, KernDb.deleteStep]
      cases env.Prepare ("DELETE FROM " ++ KernelConfig.table_name ++ " WHERE " ++
        D.Where ++ ";") with
      | error e => exact ⟨e, rfl⟩
      | ok s => exact ⟨⟨"Timeout while waiting for Database"⟩, by simp only [hto]⟩

/-- C17 at concrete inputs: with three attempts, a step that is busy twice and then done
gives done; a step that is busy three times gives the timeout, whatever it would answer
to a fourth call. -/
theorem C17_bounded_retry_witness :
    SQLRetyLoop (fun j => if j < 2 then (.SQLITE_BUSY, []) else (.SQLITE_DONE, [])) [] 3 0 =
        (.ok .SQLITE_DONE, []) ∧
      SQLRetyLoop (fun j => if j < 3 then (.SQLITE_BUSY, []) else (.SQLITE_DONE, [])) [] 3 0 =
        (.error ⟨"Timeout while waiting for Database"⟩, []) :=
  ⟨(C17_bounded_retry (fun j => if j < 2 then (.SQLITE_BUSY, []) else (.SQLITE_DONE, []))
      [] 3).1 2 (by decide) (by decide) (by decide),
    (C17_bounded_retry (fun j => if j < 3 then (.SQLITE_BUSY, []) else (.SQLITE_DONE, []))
      [] 3).2.1 (by decide)⟩

/-! ## C18 -/

/-- C18: on an enabled cache, when the select step yields the row `r`: if its
`uncompressed_size` is not 0, the payload is `decompress_fn` of its `kernel_blob` and its
size (as the `unsigned int` the parameter takes, which is the size itself when it lies in
1 .. 2^32-1); if it is 0, the payload is the `kernel_blob` itself, whatever
`decompress_fn` is; and when the `md5` of the payload is the `kernel_hash` of the row,
`FindRecordUnsafe` returns that payload. -/
theorem C18_find_decode_step (db : KernDb) (env : Env) (t : List Row) (D : KernelConfig)
    (r : Row) (he : db.filename ≠ "")
    (hs : (KernDb.selectStep env t D).1 = .ok (.SQLITE_ROW r)) :
    (r.uncompressed_size ≠ 0 →
      env.md5 (db.decompress_fn r.kernel_blob (toUInt32 r.uncompressed_size)) =
        r.kernel_hash →
      (db.FindRecordUnsafe env t D).1 =
        .ok (some (db.decompress_fn r.kernel_blob (toUInt32 r.uncompressed_size)))) ∧
    (0 < r.uncompressed_size → r.uncompressed_size < 2 ^ 32 →
      toUInt32 r.uncompressed_size = r.uncompressed_size.toNat ∧
      (env.md5 (db.decompress_fn r.kernel_blob r.uncompressed_size.toNat) = r.kernel_hash →
        (db.FindRecordUnsafe env t D).1 =
          .ok (some (db.decompress_fn r.kernel_blob r.uncompressed_size.toNat)))) ∧
    (r.uncompressed_size = 0 → env.md5 r.kernel_blob = r.kernel_hash →
      ∀ d : String → Nat → String,
        ((⟨db.filename, db.compress_fn, d⟩ : KernDb).FindRecordUnsafe env t D).1 =
          .ok (some r.kernel_blob)) := by
  have hfull : KernDb.selectStep env t D =
      (.ok (.SQLITE_ROW r), (KernDb.selectStep env t D).2) := Prod.ext hs rfl
  have hgen : r.uncompressed_size ≠ 0 →
      env.md5 (db.decompress_fn r.kernel_blob (toUInt32 r.uncompressed_size)) =
        r.kernel_hash →
      (db.FindRecordUnsafe env t D).1 =
        .ok (some (db.decompress_fn r.kernel_blob (toUInt32 r.uncompressed_size))) := by
    intro h0 hm
    rw [Find_of_step db env t D he r _ hfull]
    have hd : db.decode r = db.decompress_fn r.kernel_blob (toUInt32 r.uncompressed_size) := by
      simp [KernDb.decode, h0]
    simp [hd, hm]
  refine ⟨hgen, ?_, ?_⟩
  · intro hpos hlt
    have hu : toUInt32 r.uncompressed_size = r.uncompressed_size.toNat := by
      unfold toUInt32
      rw [Int.emod_eq_of_lt (le_of_lt hpos) hlt]
    refine ⟨hu, ?_⟩
    intro hm
    rw [← hu] at hm ⊢
    exact hgen (ne_of_gt hpos) hm
  · intro h0 hm d
    rw [Find_of_step ⟨db.filename, db.compress_fn, d⟩ env t D he r _ hfull]
    have hd : (⟨db.filename, db.compress_fn, d⟩ : KernDb).decode r = r.kernel_blob := by
      simp [KernDb.decode, h0]
    simp [hd, hm]

/-- C18 at concrete inputs: a row of size 3 is decompressed and returned, and a row of
size 0 is returned as it is by a handle whose `decompress_fn` gives other bytes. -/
theorem C18_find_decode_step_witness :
    (exampleDb.FindRecordUnsafe exampleEnv [⟨"k", "a", "zabc", "abc", 3⟩] ⟨"k", "a", ""⟩).1 =
        .ok (some "abc") ∧
      ((⟨"kern.db", exampleDb.compress_fn, fun _ _ => "other"⟩ : KernDb).FindRecordUnsafe
        exampleEnv [⟨"k", "a", "abc", "abc", 0⟩] ⟨"k", "a", ""⟩).1 = .ok (some "abc") :=
  ⟨(C18_find_decode_step exampleDb exampleEnv [⟨"k", "a", "zabc", "abc", 3⟩] ⟨"k", "a", ""⟩
      ⟨"k", "a", "zabc", "abc", 3⟩ (by decide) (by decide)).2.1 (by decide) (by decide)
        |>.2 (by decide),
    (C18_find_decode_step exampleDb exampleEnv [⟨"k", "a", "abc", "abc", 0⟩] ⟨"k", "a", ""⟩
      ⟨"k", "a", "abc", "abc", 0⟩ (by decide) (by decide)).2.2 (by decide) (by decide)
        (fun _ _ => "other")⟩

/-! ## C19 -/

/-- C19 (as amended): on an enabled cache and an engine that runs its statements and visits
each row, for a descriptor D whose name and args hold no single quote and no NUL byte:
`FindRecordUnsafe(D)` returns absent exactly when no row has D's name and args; and when
rows have them, its result is decided by the first of them in the visiting order alone:
the corruption error when the `md5` of the decoded payload of that row is not its
`kernel_hash`, that payload otherwise.  So, in rowid order, it throws for a table whose
first matching row is altered and whose second is intact, and it returns the payload of
the first of two intact matching rows. -/
theorem C19_first_row_lookup (db : KernDb) (env : Env) (t : List Row) (D : KernelConfig)
    (he : db.filename ≠ "") (hr : env.Runs) (hv : env.VisitsEachRow)
    (hn : sqlSafe D.kernel_name) (ha : sqlSafe D.kernel_args) :
    ((db.FindRecordUnsafe env t D).1 = .ok none ↔
      ∀ x ∈ t, ¬ (x.kernel_name = D.kernel_name ∧ x.kernel_args = D.kernel_args)) ∧
    (∀ r, (env.order t).find? D.selects = some r →
      (db.FindRecordUnsafe env t D).1 =
        if env.md5 (db.decode r) ≠ r.kernel_hash then
          .error ⟨"Possible database corruption"⟩
        else .ok (some (db.decode r))) ∧
    ((exampleDb.FindRecordUnsafe exampleEnv
        [⟨"k", "a", "zabX", "abc", 3⟩, ⟨"k", "a", "zabd", "abd", 3⟩] ⟨"k", "a", ""⟩).1 =
      .error ⟨"Possible database corruption"⟩) ∧
    ((exampleDb.FindRecordUnsafe exampleEnv
        [⟨"k", "a", "zabc", "abc", 3⟩, ⟨"k", "a", "zabd", "abd", 3⟩] ⟨"k", "a", ""⟩).1 =
      .ok (some "abc")) := by
  rw [Find_runs db env t D he hr hn ha]
  refine ⟨?_, ?_, by decide, by decide⟩
  · constructor
    · intro h x hx hsel
      cases hf : (env.order t).find? D.selects with
      | none =>
        have := List.find?_eq_none.1 hf x ((hv t).mem_iff.2 hx)
        simp [KernelConfig.selects, hsel.1, hsel.2] at this
      | some r =>
        rw [hf] at h
        simp only [] at h
        split at h <;> simp at h
    · intro h
      have hf : (env.order t).find? D.selects = none := by
        rw [List.find?_eq_none]
        intro x hx
        have := h x ((hv t).mem_iff.1 hx)
        simpa [KernelConfig.selects] using this
      rw [hf]
  · intro r hf
    rw [hf]

/-- C19 at a concrete input: three rows, the second and third with the name and args of
the descriptor; the second is examined. -/
theorem C19_first_row_lookup_witness :
    (exampleDb.FindRecordUnsafe exampleEnv
      [⟨"j", "a", "zxyz", "xyz", 3⟩, ⟨"k", "a", "zabc", "abc", 3⟩, ⟨"k", "a", "zabd", "abd", 3⟩]
      ⟨"k", "a", ""⟩).1 = .ok (some "abc") :=
  (C19_first_row_lookup exampleDb exampleEnv
    [⟨"j", "a", "zxyz", "xyz", 3⟩, ⟨"k", "a", "zabc", "abc", 3⟩, ⟨"k", "a", "zabd", "abd", 3⟩]
    ⟨"k", "a", ""⟩ (by decide) ⟨by decide, rfl⟩ (fun t => List.Perm.refl t) (by decide)
    (by decide)).2.1 ⟨"k", "a", "zabc", "abc", 3⟩ (by decide)

/-- C19 (as stated) fails for the name `a''b`, for which the `SELECT` looks for the name
`a'b`.  (1) On a table whose one row has the name and args of the descriptor and is
intact, `FindRecordUnsafe` returns absent.  (2) On a table whose one row has the name
`a'b`, so that no row has the name of the descriptor, it returns the payload of that
row. -/
theorem C19_counterexample :
    ((exampleDb.FindRecordUnsafe exampleEnv [⟨"a''b", "x", "zabc", "abc", 3⟩]
        ⟨"a''b", "x", ""⟩).1 = .ok none ∧
      (⟨"a''b", "x", "zabc", "abc", 3⟩ : Row).kernel_name = "a''b" ∧
      (⟨"a''b", "x", "zabc", "abc", 3⟩ : Row).kernel_args = "x") ∧
    ((exampleDb.FindRecordUnsafe exampleEnv [⟨"a'b", "x", "zabc", "abc", 3⟩]
        ⟨"a''b", "x", ""⟩).1 = .ok (some "abc") ∧
      (⟨"a'b", "x", "zabc", "abc", 3⟩ : Row).kernel_name ≠ "a''b") := by
  refine ⟨⟨by decide, rfl, rfl⟩, by decide, by decide⟩

/-! ## C20 -/

/-- C20: for the empty payload the row `StoreRecordUnsafe` binds has `uncompressed_size`
0 both when `compress_fn` reports failure (the blob is then the empty payload) and when
it reports success (the blob is then the compressed output); on an enabled cache and an
engine that runs its statements that row is written.  Every handle decodes the row to its
stored bytes whatever its `decompress_fn` is, so a `FindRecordUnsafe` that examines it
returns the stored bytes when their `md5` is the stored hash and throws the corruption
error otherwise. -/
theorem C20_empty_artifact_ambiguity (db : KernDb) (env : Env) (t : List Row)
    (name args : String) :
    (db.encode env ⟨name, args, ""⟩).uncompressed_size = 0 ∧
    ((db.compress_fn "").2 = false →
      db.encode env ⟨name, args, ""⟩ = ⟨name, args, "", env.md5 "", 0⟩) ∧
    ((db.compress_fn "").2 = true →
      db.encode env ⟨name, args, ""⟩ = ⟨name, args, (db.compress_fn "").1, env.md5 "", 0⟩) ∧
    (db.filename ≠ "" → env.Runs →
      (db.StoreRecordUnsafe env t ⟨name, args, ""⟩).2 =
        insertOrReplace t (db.encode env ⟨name, args, ""⟩)) ∧
    (∀ finder : KernDb, finder.decode (db.encode env ⟨name, args, ""⟩) =
      (db.encode env ⟨name, args, ""⟩).kernel_blob) ∧
    (∀ (finder : KernDb) (env' : Env) (t' : List Row) (D' : KernelConfig),
      finder.filename ≠ "" →
      (KernDb.selectStep env' t' D').1 =
        .ok (.SQLITE_ROW (db.encode env ⟨name, args, ""⟩)) →
      (finder.FindRecordUnsafe env' t' D').1 =
        if env'.md5 (db.encode env ⟨name, args, ""⟩).kernel_blob ≠ env.md5 "" then
          .error ⟨"Possible database corruption"⟩
        else .ok (some (db.encode env ⟨name, args, ""⟩).kernel_blob)) := by
  have hfail : (db.compress_fn "").2 = false →
      db.encode env ⟨name, args, ""⟩ = ⟨name, args, "", env.md5 "", 0⟩ :=
    fun h => encode_of_failure db env ⟨name, args, ""⟩ h
  have hsucc : (db.compress_fn "").2 = true →
      db.encode env ⟨name, args, ""⟩ = ⟨name, args, (db.compress_fn "").1, env.md5 "", 0⟩ := by
    intro h
    rw [encode_of_success db env ⟨name, args, ""⟩ h]
    rfl
  have hsize : (db.encode env ⟨name, args, ""⟩).uncompressed_size = 0 := by
    cases h : (db.compress_fn "").2 with
    | false => rw [hfail h]
    | true => rw [hsucc h]
  have hdec : ∀ finder : KernDb, finder.decode (db.encode env ⟨name, args, ""⟩) =
      (db.encode env ⟨name, args, ""⟩).kernel_blob := by
    intro finder
    simp [KernDb.decode, hsize]
  refine ⟨hsize, hfail, hsucc, ?_, hdec, ?_⟩
  · intro he hr
    rw [Store_runs db env t _ he hr]
  · intro finder env' t' D' hf hs
    rw [Find_of_step finder env' t' D' hf _ _ (Prod.ext hs rfl), hdec finder, encode_hash]

/-- C20 at a concrete input: the codec reports success for the empty payload and gives
`z`; the row holds `z` with size 0, and `FindRecordUnsafe` hashes `z` against the hash of
the empty payload and throws. -/
theorem C20_empty_artifact_ambiguity_witness :
    (exampleDb.StoreRecordUnsafe exampleEnv [] ⟨"k", "a", ""⟩).2 = [⟨"k", "a", "z", "", 0⟩] ∧
      (exampleDb.FindRecordUnsafe exampleEnv
        (exampleDb.StoreRecordUnsafe exampleEnv [] ⟨"k", "a", ""⟩).2 ⟨"k", "a", ""⟩).1 =
      .error ⟨"Possible database corruption"⟩ :=
  ⟨(C20_empty_artifact_ambiguity exampleDb exampleEnv [] "k" "a").2.2.2.1 (by decide)
      ⟨by decide, rfl⟩,
    (C20_empty_artifact_ambiguity exampleDb exampleEnv [] "k" "a").2.2.2.2.2 exampleDb
      exampleEnv _ ⟨"k", "a", ""⟩ (by decide) (by decide)⟩

/-! ## C21 -/

/-- C21: `FindRecordUnsafe` tests the stored `uncompressed_size` against 0 as the 64-bit
value it is, and hands `decompress_fn` that value as an `unsigned int`, which is the
stored size modulo 2^32.  The length handed over is the stored size for every stored size
in 1 .. 2^32-1 and differs from it for every stored size of 2^32 or more; a stored size of
exactly 2^32 is not 0, so the decompressor is called, and it is asked for 0 bytes.  A
payload of 2^32 bytes or more (below 2^63) for which `compress_fn` reports success is
recorded by `StoreRecordUnsafe` with its length, and `FindRecordUnsafe` asks the
decompressor for that length modulo 2^32, which is another length. -/
theorem C21_size_truncation (db : KernDb) (env : Env) (r : Row) (name args B : String) :
    (r.uncompressed_size ≠ 0 →
      db.decode r = db.decompress_fn r.kernel_blob (toUInt32 r.uncompressed_size)) ∧
    ((toUInt32 r.uncompressed_size : Int) = r.uncompressed_size % 2 ^ 32) ∧
    (1 ≤ r.uncompressed_size → r.uncompressed_size < 2 ^ 32 →
      (toUInt32 r.uncompressed_size : Int) = r.uncompressed_size) ∧
    (2 ^ 32 ≤ r.uncompressed_size →
      (toUInt32 r.uncompressed_size : Int) ≠ r.uncompressed_size) ∧
    (r.uncompressed_size = 2 ^ 32 → db.decode r = db.decompress_fn r.kernel_blob 0) ∧
    ((db.compress_fn B).2 = true → 2 ^ 32 ≤ B.length → B.length < 2 ^ 63 →
      (db.encode env ⟨name, args, B⟩).uncompressed_size = (B.length : Int) ∧
      db.decode (db.encode env ⟨name, args, B⟩) =
        db.decompress_fn (db.compress_fn B).1 (B.length % 2 ^ 32) ∧
      B.length % 2 ^ 32 ≠ B.length) := by
  have hmod : (toUInt32 r.uncompressed_size : Int) = r.uncompressed_size % 2 ^ 32 := by
    unfold toUInt32
    exact Int.toNat_of_nonneg (Int.emod_nonneg _ (by norm_num))
  refine ⟨?_, hmod, ?_, ?_, ?_, ?_⟩
  · intro h
    simp [KernDb.decode, h]
  · intro h1 h2
    rw [hmod]
    exact Int.emod_eq_of_lt (by omega) h2
  · intro h
    rw [hmod]
    have := Int.emod_lt_of_pos r.uncompressed_size (by norm_num : (0 : Int) < 2 ^ 32)
    omega
  · intro h
    have h0 : r.uncompressed_size ≠ 0 := by rw [h]; norm_num
    have hu : toUInt32 r.uncompressed_size = 0 := by rw [h]; rfl
    simp [KernDb.decode, h0, hu]
  · intro hs h32 h63
    have hsz : toInt64 B.length = (B.length : Int) := toInt64_of_lt _ h63
    rw [encode_of_success db env ⟨name, args, B⟩ hs]
    refine ⟨hsz, ?_, ?_⟩
    · have h0 : toInt64 B.length ≠ 0 := by rw [hsz]; omega
      show (if toInt64 B.length ≠ 0 then
        db.decompress_fn (db.compress_fn B).1 (toUInt32 (toInt64 B.length))
        else (db.compress_fn B).1) = _
      rw [if_pos h0, toUInt32_toInt64]
    · have := Nat.mod_lt B.length (by norm_num : 0 < 2 ^ 32)
      omega

/-- C21 at concrete inputs: a row of stored size 2^32 + 3 is decompressed to 3 bytes, and
the 2^32-byte payload is recorded with size 2^32 and decoded by asking for 0 bytes. -/
theorem C21_size_truncation_witness :
    lengthDb.decode ⟨"k", "a", "z", "h", 2 ^ 32 + 3⟩ = "xxx" ∧
      ((lengthDb.encode exampleEnv ⟨"k", "a", bigBlob⟩).uncompressed_size =
          (bigBlob.length : Int) ∧
        lengthDb.decode (lengthDb.encode exampleEnv ⟨"k", "a", bigBlob⟩) =
          lengthDb.decompress_fn (lengthDb.compress_fn bigBlob).1 (bigBlob.length % 2 ^ 32) ∧
        bigBlob.length % 2 ^ 32 ≠ bigBlob.length) :=
  ⟨((C21_size_truncation lengthDb exampleEnv ⟨"k", "a", "z", "h", 2 ^ 32 + 3⟩
      "k" "a" "").1 (by decide)).trans (by decide),
    (C21_size_truncation lengthDb exampleEnv ⟨"k", "a", "z", "h", 0⟩
      "k" "a" bigBlob).2.2.2.2.2 rfl (le_of_eq bigBlob_length.symm)
      (lt_of_eq_of_lt bigBlob_length (by norm_num))⟩

/-! ## C22 -/

theorem append_quote_inj (l1 l2 r1 r2 : List Char) (h1 : quote ∉ l1) (h2 : quote ∉ l2)
    (h : l1 ++ quote :: r1 = l2 ++ quote :: r2) : l1 = l2 ∧ r1 = r2 := by
  induction l1 generalizing l2 with
  | nil =>
    cases l2 with
    | nil => simpa using h
    | cons c cs =>
      simp only [List.nil_append, List.cons_append, List.cons.injEq] at h
      exact absurd (by simp [h.1]) h2
  | cons c cs ih =>
    cases l2 with
    | nil =>
      simp only [List.nil_append, List.cons_append, List.cons.injEq] at h
      exact absurd (by simp [h.1]) h1
    | cons d ds =>
      simp only [List.cons_append, List.cons.injEq] at h
      have := ih ds (fun hm => h1 (List.mem_cons_of_mem _ hm))
        (fun hm => h2 (List.mem_cons_of_mem _ hm)) h.2
      exact ⟨by rw [h.1, this.1], this.2⟩

/-- C22: for every two descriptors whose `kernel_name` values hold no single quote, equal
`Where()` texts give equal `kernel_name` values and equal `kernel_args` values. -/
theorem C22_where_injective (c1 c2 : KernelConfig)
    (h1 : quote ∉ c1.kernel_name.data) (h2 : quote ∉ c2.kernel_name.data)
    (h : c1.Where = c2.Where) :
    c1.kernel_name = c2.kernel_name ∧ c1.kernel_args = c2.kernel_args := by
  have e : ∀ c : KernelConfig, c.Where.data =
      "(kernel_name = '".data ++ (c.kernel_name.data ++ quote ::
        (") AND (kernel_args = '".data ++ (c.kernel_args.data ++ "')".data))) := by
    intro c
    simp [KernelConfig.Where, String.data_append, quote]
  have hd := congrArg String.data h
  rw [e c1, e c2] at hd
  have hd' := List.append_cancel_left hd
  obtain ⟨hn, hr⟩ := append_quote_inj _ _ _ _ h1 h2 hd'
  have ha := List.append_cancel_right (List.append_cancel_left hr)
  exact ⟨String.ext hn, String.ext ha⟩

/-- C22 at a concrete input, where the args hold a single quote. -/
theorem C22_where_injective_witness :
    (⟨"conv3x3", "f32'x", "blob"⟩ : KernelConfig).kernel_name = "conv3x3" ∧
      (⟨"conv3x3", "f32'x", "blob"⟩ : KernelConfig).kernel_args = "f32'x" :=
  C22_where_injective ⟨"conv3x3", "f32'x", "blob"⟩ ⟨"conv3x3", "f32'x", "other"⟩
    (by decide) (by decide) (by decide)

end miopen

namespace ck

/-! ## The reverse scans (C24) -/

theorem static_for_down_succ {σ : Type} (k : Nat) (body : Nat → σ → σ) (s : σ) :
    static_for_down (k + 1) body s = static_for_down k body (body (k + 1) s) := rfl

/-- The loop of the exclusive scan, from `i = k` down to `1`: what it leaves in `y`
and in `r`. -/
theorem exclusive_loop {TData : Type} (x : Nat → TData) (f : TData → TData → TData)
    (k : Nat) : ∀ (y : Nat → TData) (r : TData),
    (∀ j, (j = 0 ∨ k < j) →
      (static_for_down k
        (fun i (s : (Nat → TData) × TData) => (Function.update s.1 i s.2, f s.2 (x i)))
        (y, r)).1 j = y j) ∧
    (1 ≤ k →
      (static_for_down k
        (fun i (s : (Nat → TData) × TData) => (Function.update s.1 i s.2, f s.2 (x i)))
        (y, r)).1 k = r) ∧
    (∀ i, 1 ≤ i → i < k →
      (static_for_down k
        (fun i (s : (Nat → TData) × TData) => (Function.update s.1 i s.2, f s.2 (x i)))
        (y, r)).1 i =
      f ((static_for_down k
        (fun i (s : (Nat → TData) × TData) => (Function.update s.1 i s.2, f s.2 (x i)))
        (y, r)).1 (i + 1)) (x (i + 1))) ∧
    (static_for_down k
        (fun i (s : (Nat → TData) × TData) => (Function.update s.1 i s.2, f s.2 (x i)))
        (y, r)).2 =
      if k = 0 then r else
        f ((static_for_down k
          (fun i (s : (Nat → TData) × TData) => (Function.update s.1 i s.2, f s.2 (x i)))
          (y, r)).1 1) (x 1) := by
  induction k with
  | zero =>
    intro y r
    refine ⟨fun j _ => rfl, fun h => absurd h (by decide), fun i h1 h2 => absurd h2 (by omega), rfl⟩
  | succ k ih =>
    intro y r
    rw [static_for_down_succ]
    obtain ⟨a, b, c, d⟩ := ih (Function.update y (k + 1) r) (f r (x (k + 1)))
    have top : (static_for_down k
        (fun i (s : (Nat → TData) × TData) => (Function.update s.1 i s.2, f s.2 (x i)))
        (Function.update y (k + 1) r, f r (x (k + 1)))).1 (k + 1) = r := by
      rw [a (k + 1) (Or.inr (Nat.lt_succ_self k))]
      exact Function.update_same _ _ _
    refine ⟨?_, fun _ => top, ?_, ?_⟩
    · intro j hj
      have hne : j ≠ k + 1 := by omega
      rw [a j (by omega)]
      exact Function.update_noteq hne _ _
    · intro i h1 h2
      by_cases hik : i < k
      · exact c i h1 hik
      · have hi : i = k := by omega
        subst hi
        rw [b h1, top]
    · rw [if_neg (Nat.succ_ne_zero k)]
      by_cases hk : k = 0
      · subst hk
        rw [d, if_pos rfl, top]
      · rw [d, if_neg hk]

/-- The loop of the inclusive scan leaves the positions above `k` as they were. -/
theorem inclusive_loop_above {TData : Type} (x : Nat → TData) (f : TData → TData → TData)
    (k : Nat) : ∀ (z : Nat → TData) (r : TData) (j : Nat), k < j →
    (static_for_down k
      (fun i (s : (Nat → TData) × TData) =>
        let r := f s.2 (x i)
        (Function.update s.1 i r, r))
      (z, r)).1 j = z j := by
  induction k with
  | zero => intro z r j _; rfl
  | succ k ih =>
    intro z r j hj
    rw [static_for_down_succ]
    have hne : j ≠ k + 1 := by omega
    rw [ih _ _ j (by omega)]
    exact Function.update_noteq hne _ _

/-- The two loops run in step: the same `r` at the end, and at each position from `1` to
`k` the inclusive scan holds `f` of what the exclusive scan holds and of the element of
`x`. -/
theorem inclusive_loop {TData : Type} (x : Nat → TData) (f : TData → TData → TData)
    (k : Nat) : ∀ (y z : Nat → TData) (r : TData),
    (static_for_down k
      (fun i (s : (Nat → TData) × TData) =>
        let r := f s.2 (x i)
        (Function.update s.1 i r, r))
      (z, r)).2 =
    (static_for_down k
      (fun i (s : (Nat → TData) × TData) => (Function.update s.1 i s.2, f s.2 (x i)))
      (y, r)).2 ∧
    ∀ i, 1 ≤ i → i ≤ k →
      (static_for_down k
        (fun i (s : (Nat → TData) × TData) =>
          let r := f s.2 (x i)
          (Function.update s.1 i r, r))
        (z, r)).1 i =
      f ((static_for_down k
        (fun i (s : (Nat → TData) × TData) => (Function.update s.1 i s.2, f s.2 (x i)))
        (y, r)).1 i) (x i) := by
  induction k with
  | zero =>
    intro y z r
    exact ⟨rfl, fun i h1 h2 => absurd h2 (by omega)⟩
  | succ k ih =>
    intro y z r
    rw [static_for_down_succ, static_for_down_succ]
    obtain ⟨a, b⟩ := ih (Function.update y (k + 1) r) (Function.update z (k + 1) (f r (x (k + 1))))
      (f r (x (k + 1)))
    refine ⟨a, ?_⟩
    intro i h1 h2
    by_cases hik : i ≤ k
    · exact b i h1 hik
    · have hi : i = k + 1 := by omega
      subst hi
      have e1 := inclusive_loop_above x f k (Function.update z (k + 1) (f r (x (k + 1))))
        (f r (x (k + 1))) (k + 1) (Nat.lt_succ_self k)
      have e2 := (exclusive_loop x f k (Function.update y (k + 1) r) (f r (x (k + 1)))).1
        (k + 1) (Or.inr (Nat.lt_succ_self k))
      show (static_for_down k _ (Function.update z (k + 1) (f r (x (k + 1))),
        f r (x (k + 1)))).1 (k + 1) = _
      rw [e1]
      show _ = f ((static_for_down k _ (Function.update y (k + 1) r,
        f r (x (k + 1)))).1 (k + 1)) (x (k + 1))
      rw [e2, Function.update_same, Function.update_same]

/-- C24: for an array `x` of `NSize >= 1` elements, any `f` and any `init`, and whatever
the declared arrays hold before they are assigned, the exclusive reverse scan `y` has
`y[NSize-1] = init` and `y[i] = f(y[i+1], x[i+1])` for every `i < NSize-1`, and the
inclusive reverse scan `z` has `z[i] = f(y[i], x[i])` for every `i < NSize`. -/
theorem C24_reverse_scans {TData : Type} (NSize : Nat) (x : Nat → TData)
    (f : TData → TData → TData) (init : TData) (y0 z0 : Nat → TData) (hN : 1 ≤ NSize) :
    container_reverse_exclusive_scan NSize x f init y0 (NSize - 1) = init ∧
    (∀ i, i < NSize - 1 →
      container_reverse_exclusive_scan NSize x f init y0 i =
        f (container_reverse_exclusive_scan NSize x f init y0 (i + 1)) (x (i + 1))) ∧
    (∀ i, i < NSize →
      container_reverse_inclusive_scan NSize x f init z0 i =
        f (container_reverse_exclusive_scan NSize x f init y0 i) (x i)) := by
  obtain ⟨a, b, c, d⟩ := exclusive_loop x f (NSize - 1) y0 init
  obtain ⟨p, q⟩ := inclusive_loop x f (NSize - 1) y0 z0 init
  have ex0 : container_reverse_exclusive_scan NSize x f init y0 0 =
      (static_for_down (NSize - 1)
        (fun i (s : (Nat → TData) × TData) => (Function.update s.1 i s.2, f s.2 (x i)))
        (y0, init)).2 := by
    unfold container_reverse_exclusive_scan
    exact Function.update_same _ _ _
  have exS : ∀ i, i ≠ 0 → container_reverse_exclusive_scan NSize x f init y0 i =
      (static_for_down (NSize - 1)
        (fun i (s : (Nat → TData) × TData) => (Function.update s.1 i s.2, f s.2 (x i)))
        (y0, init)).1 i := fun i hi => Function.update_noteq hi _ _
  refine ⟨?_, ?_, ?_⟩
  · by_cases hk : NSize - 1 = 0
    · rw [hk, ex0, d, if_pos hk]
    · rw [exS _ hk, b (by omega)]
  · intro i hi
    by_cases h0 : i = 0
    · subst h0
      rw [ex0, d, if_neg (by omega), exS 1 (by decide)]
    · rw [exS i h0, exS (i + 1) (Nat.succ_ne_zero i)]
      exact c i (by omega) hi
  · intro i hi
    by_cases h0 : i = 0
    · subst h0
      rw [ex0, ← p]
      unfold container_reverse_inclusive_scan
      exact Function.update_same _ _ _
    · rw [exS i h0, ← q i (by omega) (by omega)]
      exact Function.update_noteq h0 _ _

/-- C24 at the lengths `2, 3, 4` with multiplication and `init = 1`: the exclusive scan
is the packed row-major stride vector `12, 4, 1`, the inclusive scan is `24, 12, 4`. -/
theorem C24_reverse_scans_witness :
    1 ≤ 3 ∧
    (container_reverse_exclusive_scan 3 (arrayOf [2, 3, 4] 0) (fun a b => a * b) 1
        (fun _ => 0) (3 - 1) = 1 ∧
      (∀ i, i < 3 - 1 →
        container_reverse_exclusive_scan 3 (arrayOf [2, 3, 4] 0) (fun a b => a * b) 1
            (fun _ => 0) i =
          (fun a b => a * b)
            (container_reverse_exclusive_scan 3 (arrayOf [2, 3, 4] 0) (fun a b => a * b) 1
              (fun _ => 0) (i + 1))
            (arrayOf [2, 3, 4] 0 (i + 1))) ∧
      (∀ i, i < 3 →
        container_reverse_inclusive_scan 3 (arrayOf [2, 3, 4] 0) (fun a b => a * b) 1
            (fun _ => 7) i =
          (fun a b => a * b)
            (container_reverse_exclusive_scan 3 (arrayOf [2, 3, 4] 0) (fun a b => a * b) 1
              (fun _ => 0) i)
            (arrayOf [2, 3, 4] 0 i))) ∧
    (List.range 3).map (container_reverse_exclusive_scan 3 (arrayOf [2, 3, 4] 0)
      (fun a b => a * b) 1 (fun _ => 0)) = [12, 4, 1] ∧
    (List.range 3).map (container_reverse_inclusive_scan 3 (arrayOf [2, 3, 4] 0)
      (fun a b => a * b) 1 (fun _ => 7)) = [24, 12, 4] :=
  ⟨by decide,
    C24_reverse_scans 3 (arrayOf [2, 3, 4] 0) (fun a b => a * b) 1 (fun _ => 0) (fun _ => 7)
      (by decide),
    by decide, by decide⟩

/-! ## Reordering by a map and by its inverse (C25) -/

/-- A valid map of `N` entries sends the indices below `N` to indices below `N`. -/
theorem is_valid_sequence_map.lt {N : Nat} {p : Nat → Nat} (hp : is_valid_sequence_map N p)
    {i : Nat} (hi : i < N) : p i < N := by
  have h : p i ∈ (List.range N).map p := List.mem_map.2 ⟨i, List.mem_range.2 hi, rfl⟩
  exact List.mem_range.1 (hp.mem_iff.1 h)

/-- A valid map of `N` entries takes different values at different indices below `N`. -/
theorem is_valid_sequence_map.inj {N : Nat} {p : Nat → Nat} (hp : is_valid_sequence_map N p)
    {i j : Nat} (hi : i < N) (hj : j < N) (h : p i = p j) : i = j := by
  have hnd : ((List.range N).map p).Nodup := hp.nodup_iff.2 (List.nodup_range N)
  exact List.inj_on_of_nodup_map hnd (List.mem_range.2 hi) (List.mem_range.2 hj) h

/-- A valid map of `N` entries takes every value below `N` at some index below `N`. -/
theorem is_valid_sequence_map.surj {N : Nat} {p : Nat → Nat} (hp : is_valid_sequence_map N p)
    {i : Nat} (hi : i < N) : ∃ j, j < N ∧ p j = i := by
  have h : i ∈ (List.range N).map p := hp.mem_iff.2 (List.mem_range.2 hi)
  obtain ⟨j, hj, e⟩ := List.mem_map.1 h
  exact ⟨j, List.mem_range.1 hj, e⟩

/-- The inverse of a valid map undoes it on the left. -/
theorem sequence_map_inverse_left {N : Nat} {p : Nat → Nat} (hp : is_valid_sequence_map N p)
    {i : Nat} (hi : i < N) : sequence_map_inverse N p (p i) = i := by
  unfold sequence_map_inverse
  cases h : (List.range N).find? (fun j => decide (p j = p i)) with
  | none =>
    have := List.find?_eq_none.1 h i (List.mem_range.2 hi)
    simp at this
  | some j =>
    have h1 : p j = p i := by simpa using List.find?_some h
    have h2 : j < N := List.mem_range.1 (List.mem_of_find?_eq_some h)
    exact hp.inj h2 hi h1

/-- The inverse of a valid map undoes it on the right. -/
theorem sequence_map_inverse_right {N : Nat} {p : Nat → Nat} (hp : is_valid_sequence_map N p)
    {i : Nat} (hi : i < N) : p (sequence_map_inverse N p i) = i := by
  obtain ⟨j, hj, e⟩ := hp.surj hi
  rw [← e, sequence_map_inverse_left hp hj]

/-- C25: for a permutation `p` of `0 .. N-1` and an array `a` of `N` elements, at every
index `i` below `N`: reordering by new2old gives `a[p[i]]`; reordering by old2new puts
`a[i]` at `p[i]`; and each of the two reorderings undoes the other. -/
theorem C25_reorder_inverse {TData : Type} (N : Nat) (a : Nat → TData) (p : Nat → Nat)
    (hp : is_valid_sequence_map N p) :
    (∀ i, i < N → container_reorder_given_new2old a p i = a (p i)) ∧
    (∀ i, i < N → container_reorder_given_old2new N a p (p i) = a i) ∧
    (∀ i, i < N →
      container_reorder_given_old2new N (container_reorder_given_new2old a p) p i = a i) ∧
    (∀ i, i < N →
      container_reorder_given_new2old (container_reorder_given_old2new N a p) p i = a i) := by
  refine ⟨fun i _ => rfl, ?_, ?_, ?_⟩
  · intro i hi
    show a (sequence_map_inverse N p (p i)) = a i
    rw [sequence_map_inverse_left hp hi]
  · intro i hi
    show a (p (sequence_map_inverse N p i)) = a i
    rw [sequence_map_inverse_right hp hi]
  · intro i hi
    show a (sequence_map_inverse N p (p i)) = a i
    rw [sequence_map_inverse_left hp hi]

/-- C25 at the array `10, 20, 30` and the permutation `2, 0, 1`: new2old gives
`30, 10, 20`, old2new gives `20, 30, 10`, and each undoes the other. -/
theorem C25_reorder_inverse_witness :
    is_valid_sequence_map 3 (arrayOf [2, 0, 1] 0) ∧
    ((∀ i, i < 3 →
        container_reorder_given_new2old (arrayOf [10, 20, 30] 0) (arrayOf [2, 0, 1] 0) i =
          arrayOf [10, 20, 30] 0 (arrayOf [2, 0, 1] 0 i)) ∧
      (∀ i, i < 3 →
        container_reorder_given_old2new 3 (arrayOf [10, 20, 30] 0) (arrayOf [2, 0, 1] 0)
          (arrayOf [2, 0, 1] 0 i) = arrayOf [10, 20, 30] 0 i) ∧
      (∀ i, i < 3 →
        container_reorder_given_old2new 3
          (container_reorder_given_new2old (arrayOf [10, 20, 30] 0) (arrayOf [2, 0, 1] 0))
          (arrayOf [2, 0, 1] 0) i = arrayOf [10, 20, 30] 0 i) ∧
      (∀ i, i < 3 →
        container_reorder_given_new2old
          (container_reorder_given_old2new 3 (arrayOf [10, 20, 30] 0) (arrayOf [2, 0, 1] 0))
          (arrayOf [2, 0, 1] 0) i = arrayOf [10, 20, 30] 0 i)) ∧
    (List.range 3).map
      (container_reorder_given_new2old (arrayOf [10, 20, 30] 0) (arrayOf [2, 0, 1] 0)) =
      [30, 10, 20] ∧
    (List.range 3).map
      (container_reorder_given_old2new 3 (arrayOf [10, 20, 30] 0) (arrayOf [2, 0, 1] 0)) =
      [20, 30, 10] :=
  ⟨by decide,
    C25_reorder_inverse 3 (arrayOf [10, 20, 30] 0) (arrayOf [2, 0, 1] 0) (by decide),
    by decide, by decide⟩

/-! ## Writing and reading a subset of an array (C26) -/

theorem static_for_succ {σ : Type} (k : Nat) (body : Nat → σ → σ) (s : σ) :
    static_for (k + 1) body s = body k (static_for k body s) := rfl

/-- A position that no pick names keeps its value. -/
theorem set_container_subset_frame {T : Type} (M : Nat) (y : Nat → T) (picks : Nat → Nat)
    (x : Nat → T) (q : Nat) (hq : ∀ i, i < M → picks i ≠ q) :
    set_container_subset M y picks x q = y q := by
  induction M with
  | zero => rfl
  | succ k ih =>
    show Function.update (set_container_subset k y picks x) (picks k) (x k) q = y q
    rw [Function.update_noteq (fun h => hq k (Nat.lt_succ_self k) h.symm)]
    exact ih (fun i hi => hq i (Nat.lt_succ_of_lt hi))

/-- The position of a pick that no later pick names holds the element written for it. -/
theorem set_container_subset_last {T : Type} (M : Nat) (y : Nat → T) (picks : Nat → Nat)
    (x : Nat → T) (i : Nat) (hi : i < M)
    (hlast : ∀ j, i < j → j < M → picks j ≠ picks i) :
    set_container_subset M y picks x (picks i) = x i := by
  induction M with
  | zero => exact absurd hi (Nat.not_lt_zero i)
  | succ k ih =>
    show Function.update (set_container_subset k y picks x) (picks k) (x k) (picks i) = x i
    by_cases hik : i = k
    · subst hik
      exact Function.update_same _ _ _
    · have hlt : i < k := by omega
      rw [Function.update_noteq (fun h => hlast k hlt (Nat.lt_succ_self k) h.symm)]
      exact ih hlt (fun j h1 h2 => hlast j h1 (Nat.lt_succ_of_lt h2))

set_option linter.unusedVariables false in
/-- C26: for an array `y` of `N` elements, `M <= N` picks in range and pairwise distinct,
and an array `x` of `M` elements, after `set_container_subset(y, picks, x)` reading the
picks gives `x` and every position that is not a pick keeps its value; in general the
position of a pick holds the element of the last pick that names it, and with the picks
`0, 0` and the elements `1, 2` reading the picks gives `2, 2`, not `1, 2`. -/
theorem C26_subset_set_get {T : Type} (N M : Nat) (y : Nat → T) (picks : Nat → Nat)
    (x : Nat → T) (hM : M ≤ N) (hrange : ∀ i, i < M → picks i < N)
    (hdistinct : ∀ i, i < M → ∀ j, j < M → picks i = picks j → i = j) :
    (∀ i, i < M → get_container_subset (set_container_subset M y picks x) picks i = x i) ∧
    (∀ q, q < N → (∀ i, i < M → picks i ≠ q) → set_container_subset M y picks x q = y q) ∧
    (∀ (M' : Nat) (picks' : Nat → Nat) (x' : Nat → T) (i : Nat), i < M' →
      (∀ j, i < j → j < M' → picks' j ≠ picks' i) →
      set_container_subset M' y picks' x' (picks' i) = x' i) ∧
    get_container_subset
      (set_container_subset 2 (arrayOf [5, 6] 0) (arrayOf [0, 0] 0) (arrayOf [1, 2] 0))
      (arrayOf [0, 0] 0) 0 = 2 ∧
    get_container_subset
      (set_container_subset 2 (arrayOf [5, 6] 0) (arrayOf [0, 0] 0) (arrayOf [1, 2] 0))
      (arrayOf [0, 0] 0) 0 ≠ arrayOf [1, 2] 0 0 := by
  refine ⟨?_, ?_, ?_, rfl, by decide⟩
  · intro i hi
    exact set_container_subset_last M y picks x i hi
      (fun j h1 h2 h => absurd (hdistinct j h2 i hi h) (by omega))
  · intro q _ hq
    exact set_container_subset_frame M y picks x q hq
  · intro M' picks' x' i hi hlast
    exact set_container_subset_last M' y picks' x' i hi hlast

/-- C26 at the array `5, 6, 7, 8`, the picks `3, 1` and the elements `1, 2`: the array
becomes `5, 2, 7, 1`. -/
theorem C26_subset_set_get_witness :
    (2 ≤ 4 ∧ (∀ i, i < 2 → arrayOf [3, 1] 0 i < 4) ∧
      (∀ i, i < 2 → ∀ j, j < 2 → arrayOf [3, 1] 0 i = arrayOf [3, 1] 0 j → i = j)) ∧
    ((∀ i, i < 2 →
        get_container_subset
          (set_container_subset 2 (arrayOf [5, 6, 7, 8] 0) (arrayOf [3, 1] 0)
            (arrayOf [1, 2] 0))
          (arrayOf [3, 1] 0) i = arrayOf [1, 2] 0 i) ∧
      (∀ q, q < 4 → (∀ i, i < 2 → arrayOf [3, 1] 0 i ≠ q) →
        set_container_subset 2 (arrayOf [5, 6, 7, 8] 0) (arrayOf [3, 1] 0)
          (arrayOf [1, 2] 0) q = arrayOf [5, 6, 7, 8] 0 q) ∧
      (∀ (M' : Nat) (picks' : Nat → Nat) (x' : Nat → Nat) (i : Nat), i < M' →
        (∀ j, i < j → j < M' → picks' j ≠ picks' i) →
        set_container_subset M' (arrayOf [5, 6, 7, 8] 0) picks' x' (picks' i) = x' i) ∧
      get_container_subset
        (set_container_subset 2 (arrayOf [5, 6] 0) (arrayOf [0, 0] 0) (arrayOf [1, 2] 0))
        (arrayOf [0, 0] 0) 0 = 2 ∧
      get_container_subset
        (set_container_subset 2 (arrayOf [5, 6] 0) (arrayOf [0, 0] 0) (arrayOf [1, 2] 0))
        (arrayOf [0, 0] 0) 0 ≠ arrayOf [1, 2] 0 0) ∧
    (List.range 4).map
      (set_container_subset 2 (arrayOf [5, 6, 7, 8] 0) (arrayOf [3, 1] 0)
        (arrayOf [1, 2] 0)) = [5, 2, 7, 1] :=
  ⟨⟨by decide, by decide, by decide⟩,
    C26_subset_set_get 4 2 (arrayOf [5, 6, 7, 8] 0) (arrayOf [3, 1] 0) (arrayOf [1, 2] 0)
      (by decide) (by decide) (by decide),
    by decide⟩

/-! ## The grouped views of the input and of the output (C23) -/

theorem mixed_radix_lt {a b A B : Nat} (ha : a < A) (hb : b < B) : a * B + b < A * B :=
  calc a * B + b < a * B + B := Nat.add_lt_add_left hb _
    _ = (a + 1) * B := (Nat.succ_mul a B).symm
    _ ≤ A * B := Nat.mul_le_mul_right B ha

theorem mixed_radix_inj {a b a' b' B : Nat} (hb : b < B) (hb' : b' < B)
    (h : a * B + b = a' * B + b') : a = a' ∧ b = b' := by
  have hB : 0 < B := Nat.lt_of_le_of_lt (Nat.zero_le b) hb
  have hd : (a * B + b) / B = (a' * B + b') / B := by rw [h]
  have hm : (a * B + b) % B = (a' * B + b') % B := by rw [h]
  rw [Nat.add_comm (a * B), Nat.add_comm (a' * B), Nat.add_mul_div_right _ _ hB,
    Nat.add_mul_div_right _ _ hB, Nat.div_eq_of_lt hb, Nat.div_eq_of_lt hb'] at hd
  rw [Nat.add_comm (a * B), Nat.add_comm (a' * B), Nat.add_mul_mod_self_right,
    Nat.add_mul_mod_self_right, Nat.mod_eq_of_lt hb, Nat.mod_eq_of_lt hb'] at hm
  exact ⟨by omega, hm⟩

/-- The offset of the descriptor with the strides of the grouped view, in nested form. -/
theorem grouped_offset (G N C H W g n c h w : Nat) :
    (make_native_tensor_descriptor [G, N, C / G, H, W]
        [C / G * H * W, C * H * W, H * W, W, 1]).CalculateOffset [g, n, c, h, w] =
      ((n * C + (g * (C / G) + c)) * H + h) * W + w := by
  simp only [NativeTensorDescriptor.CalculateOffset, make_native_tensor_descriptor,
    List.zipWith_cons_cons, List.zipWith_nil_left, List.sum_cons, List.sum_nil]
  ring

/-- The descriptor with the lengths and the strides of the grouped view is a grouped
view, whatever the number of groups. -/
theorem grouped_view (G N C H W : Nat) :
    GroupedView (make_native_tensor_descriptor [G, N, C / G, H, W]
      [C / G * H * W, C * H * W, H * W, W, 1]) G N C H W := by
  have hch : ∀ g c, g < G → c < C / G → g * (C / G) + c < C := fun g c hg hc =>
    Nat.lt_of_lt_of_le (mixed_radix_lt hg hc) (Nat.mul_div_le C G)
  refine ⟨rfl, ?_⟩
  intro g n c h w hg hn hc hh hw
  refine ⟨?_, hch g c hg hc, ?_, ?_⟩
  · rw [grouped_offset]; ring
  · rw [grouped_offset]
    have e : N * C * H * W = ((N * C) * H) * W := rfl
    rw [e]
    exact mixed_radix_lt (mixed_radix_lt (mixed_radix_lt hn (hch g c hg hc)) hh) hw
  · intro g' n' c' h' w' hg' hn' hc' hh' hw' e
    rw [grouped_offset, grouped_offset] at e
    obtain ⟨e1, ew⟩ := mixed_radix_inj hw' hw e
    obtain ⟨e2, eh⟩ := mixed_radix_inj hh' hh e1
    obtain ⟨en, e3⟩ := mixed_radix_inj (hch g' c' hg' hc') (hch g c hg hc) e2
    obtain ⟨eg, ec⟩ := mixed_radix_inj hc' hc e3
    exact ⟨eg, en, ec, eh, ew⟩

/-- With `G` dividing `C`, every channel below `C` is channel `c` of group `g` for some
`g < G` and `c < C / G`. -/
theorem grouped_channels {G C : Nat} (hG : G ∣ C) (ch : Nat) (hch : ch < C) :
    ∃ g c, g < G ∧ c < C / G ∧ g * (C / G) + c = ch := by
  obtain ⟨q, rfl⟩ := hG
  have hG0 : 0 < G := by
    rcases Nat.eq_zero_or_pos G with h | h
    · subst h; simp at hch
    · exact h
  have hq : G * q / G = q := Nat.mul_div_cancel_left q hG0
  rw [hq]
  have hq0 : 0 < q := by
    rcases Nat.eq_zero_or_pos q with h | h
    · subst h; simp at hch
    · exact h
  refine ⟨ch / q, ch % q, ?_, Nat.mod_lt _ hq0, ?_⟩
  · exact (Nat.div_lt_iff_lt_mul hq0).2 hch
  · rw [Nat.mul_comm]; exact Nat.div_add_mod ch q

/-- C23: for `G` dividing `C` and `K`, the input view of lengths
`(G, N, C/G, Hi, Wi)` and strides `((C/G)*Hi*Wi, C*Hi*Wi, Hi*Wi, Wi, 1)` sends every index
`(g, n, c, h, w)` in range to `n*C*Hi*Wi + (g*(C/G) + c)*Hi*Wi + h*Wi + w`, the packed
NCHW offset of the element `(n, g*(C/G) + c, h, w)`, which is below `N*C*Hi*Wi`, and
distinct indices in range get distinct offsets; every channel below `C` is reached; and
the same holds for the output view with `K`, `K/G`, `Ho`, `Wo`. -/
theorem C23_grouped_addressing (G N C K Hi Wi Ho Wo : Nat) (hC : G ∣ C) (hK : G ∣ K) :
    GroupedView (in_g_n_cpergroup_hi_wi_global_desc G N C Hi Wi) G N C Hi Wi ∧
    (∀ ch, ch < C → ∃ g c, g < G ∧ c < C / G ∧ g * (C / G) + c = ch) ∧
    GroupedView (out_g_n_kpergroup_ho_wo_global_desc G N K Ho Wo) G N K Ho Wo ∧
    (∀ k, k < K → ∃ g c, g < G ∧ c < K / G ∧ g * (K / G) + c = k) :=
  ⟨grouped_view G N C Hi Wi, grouped_channels hC, grouped_view G N K Ho Wo,
    grouped_channels hK⟩

/-- C23 at two groups over an input of lengths `2, 4, 3, 3` and an output of lengths
`2, 6, 2, 2`: the index `(1, 1, 1, 2, 2)` of the input view is the offset of the element
`(1, 3, 2, 2)`, which is `71`, the last of the `72`. -/
theorem C23_grouped_addressing_witness :
    (2 ∣ 4 ∧ 2 ∣ 6) ∧
    (GroupedView (in_g_n_cpergroup_hi_wi_global_desc 2 2 4 3 3) 2 2 4 3 3 ∧
      (∀ ch, ch < 4 → ∃ g c, g < 2 ∧ c < 4 / 2 ∧ g * (4 / 2) + c = ch) ∧
      GroupedView (out_g_n_kpergroup_ho_wo_global_desc 2 2 6 2 2) 2 2 6 2 2 ∧
      (∀ k, k < 6 → ∃ g c, g < 2 ∧ c < 6 / 2 ∧ g * (6 / 2) + c = k)) ∧
    in_g_n_cpergroup_hi_wi_global_desc 2 2 4 3 3 =
      make_native_tensor_descriptor [2, 2, 2, 3, 3] [18, 36, 9, 3, 1] ∧
    (in_g_n_cpergroup_hi_wi_global_desc 2 2 4 3 3).CalculateOffset [1, 1, 1, 2, 2] = 71 ∧
    (out_g_n_kpergroup_ho_wo_global_desc 2 2 6 2 2).CalculateOffset [1, 0, 2, 1, 1] = 23 :=
  ⟨⟨by decide, by decide⟩, C23_grouped_addressing 2 2 4 6 3 3 2 2 (by decide) (by decide),
    by decide, by decide, by decide⟩

end ck
